import Mathlib

/-!
# Ai2Canvas: the Function / Layer compilation model

A shallow embedding of `FunctionCollection.cpp`, `DrawFunction.cpp` and the
scan, layer-name, option and bounds code of `HtmlDocument.cpp` and
`TypescriptDocument.cpp` (namespace `CanvasExport`), followed by theorems about
name lookup, name uniquification, draw-function registration, option
application, layer-name parsing, document bounds, repositioning, the artwork
scan and `ParseLayers`.

Conventions of the embedding

* `std::string` is `String`; a position in a string counts characters.
* `AIReal` is `ℚ`, read as exact arithmetic.  The reals assigned by
  `SetParameter` are the literals `0.0f`, `0.5f`, `1.0f` (exact in every binary
  floating-point format) and the results of `strtod`, which is a parameter.
* Callees defined outside the modelled sources (`Tokenize`, `strtod`,
  `CleanString`, `CleanParameter`, `ToLower`, `UpdateBounds`) are parameters of
  the functions that call them.
* A pointer to a function of the collection is its index in `functions`
  (functions are only ever appended, so an index stays valid); a pointer to a
  `Layer` is an index into the document's layer store.
* `int unique` in `CreateUniqueName` is a `Nat`: the counter never exceeds the
  number of stored functions plus one.
* The art of a layer is a tree `Art`: an art object carries the attributes the
  host reports for it, the art of its symbol pattern, the first child of its
  plug-in result group, its first child and its next sibling; `Art.null` is the
  handle `NULL`.
* The `debug` trace written to `outFile` is not part of any object's state and
  is left out.
-/

namespace CanvasExport

/-! ## Data model -/

abbrev AIReal := ℚ

/-- The rectangle type of the host SDK. -/
structure AIRealRect where
  left : AIReal
  top : AIReal
  right : AIReal
  bottom : AIReal
deriving DecidableEq

/-- The fields of `Layer` that the compilation model reads or writes. -/
structure Layer where
  layerHandle : Nat
  name : String
  bounds : AIRealRect
  artHandle : Nat
  crop : Bool
  hasAlpha : Bool
  hasGradients : Bool
  hasPatterns : Bool
deriving DecidableEq

/-- The enumeration `Function::FunctionType`; the three enumerators are the ones
the sources name. -/
inductive FunctionType where
  | kDrawFunction
  | kAnimationFunction
  | kAnyFunction
deriving DecidableEq

open FunctionType

/-- One record for every object stored in `FunctionCollection::functions`: the
base-class fields of `Function` together with the fields of `DrawFunction`, which
the code reads only behind a `type == kDrawFunction` test and a downcast.
`layers` holds pointers into the document's layer store and `canvas` is an opaque
handle. -/
structure Function where
  type : FunctionType
  name : String
  bounds : AIRealRect
  canvas : Nat
  translateOrigin : Bool
  translateOriginH : AIReal
  translateOriginV : AIReal
  requestedName : String
  hasGradients : Bool
  hasPatterns : Bool
  hasAlpha : Bool
  followOrientation : AIReal
  rasterizeFileName : String
  crop : Bool
  layers : List Nat
deriving DecidableEq

abbrev DrawFunction := Function

/-- The constructor `DrawFunction::DrawFunction()`.  `base` is the object as the
base-class constructor `Function::Function()` left it; the vector `layers` starts
empty. -/
def DrawFunction.new (base : Function) : DrawFunction :=
  { base with
    type := kDrawFunction
    requestedName := ""
    hasGradients := false
    hasPatterns := false
    hasAlpha := false
    followOrientation := 0
    rasterizeFileName := ""
    crop := false
    layers := [] }

structure FunctionCollection where
  functions : List Function
  hasDrawFunctions : Bool
deriving DecidableEq

/-- The constructor `FunctionCollection::FunctionCollection()`. -/
def FunctionCollection.new : FunctionCollection :=
  { functions := [], hasDrawFunctions := false }

/-! ## `FunctionCollection::Find` -/

/-- The `do { i--; ... } while (i > 0)` loop of `Find`, entered with the counter
at `i`: it looks at indices `i-1, i-2, ..., 0` and stops at the first match. -/
def FindLoop (functions : List Function) (name : String) (functionType : FunctionType) :
    Nat → Option Nat
  | 0 => none
  | i + 1 =>
    match functions[i]? with
    | none => none
    | some f =>
      if (f.type = functionType ∨ f.type = kAnyFunction) ∧ f.name = name then some i
      else FindLoop functions name functionType i

/-- `FunctionCollection::Find`: the index of the function found, `none` for `NULL`. -/
def FunctionCollection.Find (c : FunctionCollection) (name : String)
    (functionType : FunctionType) : Option Nat :=
  FindLoop c.functions name functionType c.functions.length

/-! ## `FunctionCollection::CreateUniqueName` -/

/-- What `uniqueName << unique` appends for an `int`: its decimal digits. -/
def decimal (n : Nat) : String :=
  if n = 0 then "0" else String.mk ((Nat.digits 10 n).reverse.map Nat.digitChar)

/-- The `do { unique++; ... } while (Find(uniqueName.str(), kAnyFunction))` loop,
entered with the counter at `unique`; `fuel` bounds the number of iterations. -/
def CreateUniqueNameLoop (c : FunctionCollection) (usedName : String) :
    Nat → Nat → Option String
  | 0, _ => none
  | fuel + 1, unique =>
    let uniqueName := usedName ++ decimal (unique + 1)
    if (c.Find uniqueName kAnyFunction).isSome then
      CreateUniqueNameLoop c usedName fuel (unique + 1)
    else some uniqueName

/-- `FunctionCollection::CreateUniqueName`.  The loop is given one iteration more
than there are stored functions; `CreateUniqueName_isSome` shows that it never
needs more. -/
def FunctionCollection.CreateUniqueName (c : FunctionCollection) (name : String) :
    Option String :=
  if (c.Find name kAnyFunction).isSome then
    CreateUniqueNameLoop c name (c.functions.length + 1) 0
  else some name

/-! ## `FunctionCollection::FindDrawFunction` and `AddDrawFunction` -/

/-- The loop of `FindDrawFunction`, entered with the counter at `i` and the flag
`passedDrawFunction` at `passed`; it returns `drawFunction` and the flag. -/
def FindDrawFunctionLoop (functions : List Function) (name : String) :
    Nat → Bool → Option Nat × Bool
  | 0, passed => (none, passed)
  | i + 1, passed =>
    match functions[i]? with
    | none => (none, passed)
    | some f =>
      if f.type = kDrawFunction then
        if f.name = name ∨ f.requestedName = name then (some i, passed)
        else FindDrawFunctionLoop functions name i true
      else FindDrawFunctionLoop functions name i passed

/-- `FunctionCollection::FindDrawFunction`: the function found and `isLast`. -/
def FunctionCollection.FindDrawFunction (c : FunctionCollection) (name : String) :
    Option Nat × Bool :=
  if 0 < c.functions.length then
    let r := FindDrawFunctionLoop c.functions name c.functions.length false
    (r.1, r.1.isSome && !r.2)
  else (none, false)

/-- `FunctionCollection::AddDrawFunction`: the function returned and the
collection afterwards.  `base` is what `Function::Function()` constructs. -/
def FunctionCollection.AddDrawFunction (base : Function) (c : FunctionCollection)
    (name : String) : Option (Nat × FunctionCollection) :=
  let found := c.FindDrawFunction name
  let create (uniqueName : String) : Nat × FunctionCollection :=
    (c.functions.length,
      { functions := c.functions ++
          [{ DrawFunction.new base with requestedName := name, name := uniqueName }]
        hasDrawFunctions := true })
  match found.1 with
  | some drawFunction =>
    if found.2 then some (drawFunction, c)
    else (c.CreateUniqueName name).map create
  | none => (c.CreateUniqueName name).map create

/-- A run of `AddDrawFunction` calls, one per requested name, in order. -/
def FunctionCollection.AddDrawFunctions (base : Function) :
    FunctionCollection → List String → Option FunctionCollection
  | c, [] => some c
  | c, name :: names =>
    match c.AddDrawFunction base name with
    | none => none
    | some r => FunctionCollection.AddDrawFunctions base r.2 names

/-! ## Specification predicates and sample objects -/

/-- A base object for concrete evaluations. -/
def Function.sample : Function :=
  { type := kAnyFunction, name := "", bounds := ⟨0, 0, 0, 0⟩, canvas := 0,
    translateOrigin := false, translateOriginH := 0, translateOriginV := 0,
    requestedName := "", hasGradients := false, hasPatterns := false,
    hasAlpha := false, followOrientation := 0, rasterizeFileName := "",
    crop := false, layers := [] }

/-- The test `Find` applies to a stored function. -/
def FindMatches (name : String) (functionType : FunctionType) (f : Function) : Prop :=
  (f.type = functionType ∨ f.type = kAnyFunction) ∧ f.name = name

instance (name : String) (functionType : FunctionType) (f : Function) :
    Decidable (FindMatches name functionType f) := by
  unfold FindMatches; infer_instance

/-- Function `i` is the most recently added function of type Draw: it is a draw
function and no function after it is one. -/
def isMostRecentDraw (c : FunctionCollection) (i : Nat) : Bool :=
  match c.functions[i]? with
  | some f =>
    decide (f.type = kDrawFunction) &&
      (c.functions.drop (i + 1)).all (fun g => decide (g.type ≠ kDrawFunction))
  | none => false

/-- A draw function as `AddDrawFunction` creates it, for concrete evaluations. -/
def Function.sampleDraw (name : String) : DrawFunction :=
  { DrawFunction.new Function.sample with requestedName := name, name := name }

/-- The collection holding the single draw function `a`. -/
def sampleA : FunctionCollection :=
  { functions := [Function.sampleDraw "a"], hasDrawFunctions := true }

/-- The collection holding the draw functions `a` and `b`, in this order. -/
def sampleAB : FunctionCollection :=
  { functions := [Function.sampleDraw "a", Function.sampleDraw "b"], hasDrawFunctions := true }

/-! ## `DrawFunction::SetParameter` -/

/-- The call `s.find_last_of(ch)`: the position of the last `ch` in `s`, `none`
for `string::npos`. -/
def find_last_of_chars (ch : Char) : List Char → Option Nat
  | [] => none
  | x :: xs =>
    match find_last_of_chars ch xs with
    | some i => some (i + 1)
    | none => if x = ch then some 0 else none

def find_last_of (s : String) (ch : Char) : Option Nat :=
  find_last_of_chars ch s.data

/-- The call `s.substr(0, n)`: the first `n` characters of `s`, all of `s` when it
is shorter (position 0 is never past the end, so the call cannot throw). -/
def substr0 (s : String) (n : Nat) : String :=
  String.mk (s.data.take n)

/-- The statement `this->layers[0]->crop = b`, on the layer store.  `layers[0]` of
an empty vector, or a pointer to no stored layer, has no defined behaviour. -/
def setFirstLayerCrop (self : DrawFunction) (store : List Layer) (b : Bool) :
    Option (List Layer) :=
  match self.layers with
  | [] => none
  | p :: _ =>
    match store[p]? with
    | none => none
    | some l => some (store.set p { l with crop := b })

/-- The `origin` block of `SetParameter`. -/
def SetParameter.origin (Tokenize : String → String → List String)
    (strtod : String → AIReal) (value : String) (self : DrawFunction) : DrawFunction :=
  if value = "normal" ∨ value = "n" then
    { self with translateOrigin := false }
  else if value = "center" ∨ value = "c" then
    { self with translateOrigin := true, translateOriginH := 0.5, translateOriginV := 0.5 }
  else if value = "upper-left" ∨ value = "ul" then
    { self with translateOrigin := true, translateOriginH := 0, translateOriginV := 0 }
  else if value = "upper-right" ∨ value = "ur" then
    { self with translateOrigin := true, translateOriginH := 1, translateOriginV := 0 }
  else if value = "lower-right" ∨ value = "lr" then
    { self with translateOrigin := true, translateOriginH := 1, translateOriginV := 1 }
  else if value = "lower-left" ∨ value = "ll" then
    { self with translateOrigin := true, translateOriginH := 0, translateOriginV := 1 }
  else
    let originOffsets := Tokenize value ","
    if originOffsets.length = 2 then
      { self with
        translateOrigin := true
        translateOriginH := strtod (originOffsets.getD 0 "")
        translateOriginV := strtod (originOffsets.getD 1 "") }
    else self

/-- The `rasterize` block of `SetParameter`. -/
def SetParameter.rasterize (value : String) (self : DrawFunction) : DrawFunction :=
  if value = "no" ∨ value = "n" then
    { self with rasterizeFileName := "" }
  else if value ≠ "" then
    let fileName :=
      match find_last_of value '.' with
      | some index => substr0 self.name index
      | none => value
    { self with rasterizeFileName := fileName ++ ".png" }
  else self

/-- The `crop` block of `SetParameter`, on the function and the layer store. -/
def SetParameter.crop (value : String) (self : DrawFunction) (store : List Layer) :
    Option (DrawFunction × List Layer) :=
  if value = "yes" ∨ value = "y" then
    (setFirstLayerCrop self store true).map (fun st => ({ self with crop := true }, st))
  else if value = "no" ∨ value = "n" then
    (setFirstLayerCrop self store false).map (fun st => ({ self with crop := false }, st))
  else some (self, store)

/-- `DrawFunction::SetParameter`: three `if` blocks in a row, one per option.
`Tokenize` and `strtod` are the two callees defined outside the modelled sources;
`store` holds the document's layers, which the function's `layers` point into.
The result is `none` where the C++ has no defined behaviour. -/
def SetParameter (Tokenize : String → String → List String) (strtod : String → AIReal)
    (parameter value : String) (self : DrawFunction) (store : List Layer) :
    Option (DrawFunction × List Layer) :=
  let self1 :=
    if parameter = "origin" ∨ parameter = "o" then
      SetParameter.origin Tokenize strtod value self
    else self
  let self2 :=
    if parameter = "rasterize" ∨ parameter = "rast" then SetParameter.rasterize value self1
    else self1
  if parameter = "crop" ∨ parameter = "c" then SetParameter.crop value self2 store
  else some (self2, store)

/-- The loop of `Tokenize`: `cur` is the token being read, in reverse, and `acc`
the tokens already closed, in reverse. -/
def TokenizeLoop (delimiters : List Char) : List Char → List Char → List String → List String
  | [], cur, acc =>
    (if cur = [] then acc else String.mk cur.reverse :: acc).reverse
  | ch :: rest, cur, acc =>
    if ch ∈ delimiters then
      TokenizeLoop delimiters rest [] (if cur = [] then acc else String.mk cur.reverse :: acc)
    else TokenizeLoop delimiters rest (ch :: cur) acc

/-- Modelled from the spec: `Tokenize` is declared outside the sources at hand; the
spec has it split a text at its delimiter (`split(inner, ";")`, "two
comma-separated floats").  The tokens are the maximal runs of characters that are
not delimiters.  The functions that call the tokenizer take it as a parameter;
this one serves to evaluate them on concrete inputs.  At `:` it is evaluated only
on options that hold a single `:`, where splitting at every `:` and splitting at
the first `:` give the same two tokens. -/
def Tokenize (str delimiters : String) : List String :=
  TokenizeLoop delimiters.data str.data [] []

/-- A stand-in for `strtod` in concrete evaluations: it reads every text as 0. -/
def strtodZero (_ : String) : AIReal := 0

/-- A layer for concrete evaluations. -/
def Layer.sample : Layer :=
  { layerHandle := 0, name := "Circle(crop:yes);", bounds := ⟨0, 10, 10, 0⟩, artHandle := 0,
    crop := false,
    hasAlpha := false, hasGradients := false, hasPatterns := false }

/-- The draw function `circle`, holding the layer at index 0 of the store. -/
def Function.sampleCircle : DrawFunction :=
  { Function.sampleDraw "circle" with layers := [0] }

/-- The origin value is none of the twelve recognised literals. -/
def notOriginLiteral (value : String) : Prop :=
  value ≠ "normal" ∧ value ≠ "n" ∧ value ≠ "center" ∧ value ≠ "c" ∧
    value ≠ "upper-left" ∧ value ≠ "ul" ∧ value ≠ "upper-right" ∧ value ≠ "ur" ∧
    value ≠ "lower-right" ∧ value ≠ "lr" ∧ value ≠ "lower-left" ∧ value ≠ "ll"

instance (value : String) : Decidable (notOriginLiteral value) := by
  unfold notOriginLiteral; infer_instance

/-! ## `ParseLayerName` -/

/-- The call `s.substr(pos)`: the characters of `s` from position `pos` on.  Every
call modelled has `pos` within the string. -/
def substrFrom (s : String) (pos : Nat) : String :=
  String.mk (s.data.drop pos)

/-- The call `s.substr(pos, n)`: at most `n` characters of `s` from position `pos`
on.  Every call modelled has `pos` within the string. -/
def substr (s : String) (pos n : Nat) : String :=
  String.mk ((s.data.drop pos).take n)

/-- The call `s.erase(index)`: `s` cut off at position `index`. -/
def erase (s : String) (index : Nat) : String :=
  String.mk (s.data.take index)

/-- `HtmlDocument::ParseLayerName`: the function name and the option text.
`optionValue` comes in as the caller left it (`ParseLayers` declares it empty) and
`CleanString` is the name sanitiser, defined outside the modelled sources. -/
def HtmlDocument.ParseLayerName (CleanString : String → Bool → String)
    (layerName optionValue : String) : String × String :=
  let name := layerName
  let length := name.length
  if 3 < length then
    if substrFrom name (length - 2) = ");" then
      match find_last_of name '(' with
      | some index =>
        (CleanString (erase name index) true, substr name (index + 1) (length - index - 3))
      | none => ("draw", optionValue)
    else ("draw", optionValue)
  else ("draw", optionValue)

/-- `TypescriptDocument::ParseLayerName`: as the HTML variant, except that a layer
name without function syntax is itself sanitised into the function name. -/
def TypescriptDocument.ParseLayerName (CleanString : String → Bool → String)
    (layerName optionValue : String) : String × String :=
  let name := layerName
  let length := name.length
  if 3 < length then
    if substrFrom name (length - 2) = ");" then
      match find_last_of name '(' with
      | some index =>
        (CleanString (erase name index) true, substr name (index + 1) (length - index - 3))
      | none => (CleanString layerName true, optionValue)
    else (CleanString layerName true, optionValue)
  else (CleanString layerName true, optionValue)

/-- A stand-in for `CleanString` in concrete evaluations: it returns the text it
is handed. -/
def cleanStringId (s : String) (_ : Bool) : String := s

/-! ## `SetFunctionOptions` -/

/-- `TypescriptDocument::SetFunctionOptions`, on the function and the layer store.
`CleanParameter` and `ToLower` are defined outside the modelled sources.  The HTML
variant splits the option and guards on the token count in the same way, and
calls the same `SetParameter` for a draw function. -/
def SetFunctionOptions (Tokenize : String → String → List String) (strtod : String → AIReal)
    (CleanParameter ToLower : String → String) :
    List String → Function → List Layer → Option (Function × List Layer)
  | [], function, store => some (function, store)
  | option :: options, function, store =>
    let split := Tokenize option ":"
    if split.length = 2 then
      let parameter := ToLower (CleanParameter (split.getD 0 ""))
      let value := CleanParameter (split.getD 1 "")
      match function.type with
      | kDrawFunction =>
        match SetParameter Tokenize strtod parameter value function store with
        | none => none
        | some r =>
          SetFunctionOptions Tokenize strtod CleanParameter ToLower options r.1 r.2
      | _ => SetFunctionOptions Tokenize strtod CleanParameter ToLower options function store
    else SetFunctionOptions Tokenize strtod CleanParameter ToLower options function store

/-- A stand-in for `CleanParameter` and `ToLower` in concrete evaluations: it
returns the text it is handed. -/
def cleanId (s : String) : String := s

/-! ## `SetDocumentBounds` -/

/-- The constant `FLT_MAX` of `<cfloat>`: `(2^24 - 1) * 2^104`. -/
def FLT_MAX : AIReal := 340282346638528859811704183484516925440

/-- The rectangle `SetDocumentBounds` starts from. -/
def sentinelBounds : AIRealRect :=
  { left := FLT_MAX, right := -FLT_MAX, top := -FLT_MAX, bottom := FLT_MAX }

/-- The `for` loop of `SetDocumentBounds` over the layers still to visit, with the
current `documentBounds`. -/
def SetDocumentBoundsLoop (UpdateBounds : AIRealRect → AIRealRect → AIRealRect) :
    List Layer → AIRealRect → AIRealRect
  | [], documentBounds => documentBounds
  | layer :: layers, documentBounds =>
    if layer.crop then layer.bounds
    else SetDocumentBoundsLoop UpdateBounds layers (UpdateBounds layer.bounds documentBounds)

/-- What `SetDocumentBounds` writes: the document bounds and the canvas size. -/
structure DocumentBounds where
  documentBounds : AIRealRect
  width : AIReal
  height : AIReal
deriving DecidableEq

/-- `SetDocumentBounds` (the two document classes have the same body).
`UpdateBounds newBounds bounds` returns the updated `bounds`; it is defined
outside the modelled sources. -/
def SetDocumentBounds (UpdateBounds : AIRealRect → AIRealRect → AIRealRect)
    (layers : List Layer) : DocumentBounds :=
  let documentBounds := SetDocumentBoundsLoop UpdateBounds layers sentinelBounds
  { documentBounds := documentBounds
    width := documentBounds.right - documentBounds.left
    height := documentBounds.top - documentBounds.bottom }

/-- Modelled from the spec: `UpdateBounds` is defined outside the sources at hand;
the spec has it merge a rectangle into the aggregate by rectangle union, on the
aggregate started at `left = +inf, right = -inf, top = -inf, bottom = +inf`: the
smaller `left` and `bottom` and the larger `right` and `top` are kept. -/
def UpdateBounds (newBounds bounds : AIRealRect) : AIRealRect :=
  { left := min bounds.left newBounds.left
    right := max bounds.right newBounds.right
    top := max bounds.top newBounds.top
    bottom := min bounds.bottom newBounds.bottom }

/-- Every coordinate of the rectangle is a finite `float`. -/
def AIRealRect.finite (r : AIRealRect) : Prop :=
  (-FLT_MAX ≤ r.left ∧ r.left ≤ FLT_MAX) ∧ (-FLT_MAX ≤ r.right ∧ r.right ≤ FLT_MAX) ∧
    (-FLT_MAX ≤ r.top ∧ r.top ≤ FLT_MAX) ∧ (-FLT_MAX ≤ r.bottom ∧ r.bottom ≤ FLT_MAX)

/-- A layer with the given bounds and crop flag, for concrete evaluations. -/
def Layer.sampleWith (bounds : AIRealRect) (crop : Bool) : Layer :=
  { Layer.sample with bounds := bounds, crop := crop }

/-! ## `DrawFunction::Reposition` -/

/-- `DrawFunction::Reposition`: the pair `(x, y)` handed to the output stream as
the arguments of `translate`. -/
def Reposition (self : DrawFunction) (documentBounds : AIRealRect) : AIReal × AIReal :=
  let offsetH := self.bounds.left - documentBounds.left
  let offsetV := self.bounds.top - documentBounds.top
  let translateH := (self.bounds.right - self.bounds.left) * self.translateOriginH
  let translateV := (self.bounds.top - self.bounds.bottom) * self.translateOriginV
  let x := offsetH + translateH
  let y := (-1 * offsetV) + translateV
  (x, y)

/-- The rectangle `{0, 10, 10, 0}`: left 0, top 10, right 10, bottom 0. -/
def squareBounds : AIRealRect :=
  { left := 0, top := 10, right := 10, bottom := 0 }

/-- A rectangle around `squareBounds`. -/
def wideBounds : AIRealRect :=
  { left := -5, top := 20, right := 30, bottom := -7 }

/-- The draw function `circle` with bounds `squareBounds` and origin `center`. -/
def Function.sampleCentered : DrawFunction :=
  { Function.sampleCircle with
    bounds := squareBounds
    translateOrigin := true
    translateOriginH := 0.5
    translateOriginV := 0.5 }

/-- Two layers without crop, with bounds `wideBounds` and `squareBounds`. -/
def sampleLayers : List Layer :=
  [Layer.sampleWith wideBounds false, Layer.sampleWith squareBounds false]

/-! ## `DrawFunction::RenderDrawFunction`: the origin translation -/

/-- The two arguments that `RenderDrawFunction` passes to
`AIRealMatrixConcatTranslate` to move the origin, `none` when `translateOrigin`
is not set and the call is not made. -/
def RenderDrawFunction.originTranslation (self : DrawFunction) (documentBounds : AIRealRect) :
    Option (AIReal × AIReal) :=
  if self.translateOrigin then
    let offsetH := self.bounds.left - documentBounds.left
    let offsetV := self.bounds.top - documentBounds.top
    let translateH := (self.bounds.right - self.bounds.left) * self.translateOriginH
    let translateV := (self.bounds.top - self.bounds.bottom) * self.translateOriginV
    some ((-1 * offsetH) - translateH, offsetV - translateV)
  else none

/-! ## The artwork scan: `ScanLayerArtwork`, `ScanLayer`, `ScanDocument` -/

/-- The art types of the host SDK that the scan tells apart, and some others. -/
inductive AIArtType where
  | kUnknownArt
  | kGroupArt
  | kPathArt
  | kSymbolArt
  | kPluginArt
deriving DecidableEq

/-- The colour kinds of the host SDK named in the two `switch` statements. -/
inductive AIColorTag where
  | kGrayColor
  | kFourColor
  | kPattern
  | kCustomColor
  | kGradient
  | kThreeColor
  | kNoneColor
deriving DecidableEq

open AIArtType AIColorTag

/-- The fields of `AIPathStyle` that the scan reads. -/
structure AIPathStyle where
  fillPaint : Bool
  fillKind : AIColorTag
  fillPattern : Nat
  strokePaint : Bool
  strokeKind : AIColorTag
  strokePattern : Nat
deriving DecidableEq

/-- What the host answers about one art object: the hidden attribute, the bounds,
the type, the symbol pattern of a symbol instance, the opacity and the path
style. -/
structure ArtAttr where
  hidden : Bool
  bounds : AIRealRect
  type : AIArtType
  symbolPattern : Nat
  opacity : AIReal
  style : AIPathStyle
deriving DecidableEq

/-- An art handle, with what the host returns from it: `null` is the `NULL`
handle; for an art object, `patternArt` is the result of `GetPatternArt` on its
symbol pattern, `resultChild` the first child of its plug-in result group,
`firstChild` the result of `GetArtFirstChild` and `sibling` that of
`GetArtSibling`. -/
inductive Art where
  | null : Art
  | art (attr : ArtAttr) (patternArt resultChild firstChild sibling : Art) : Art

/-- The fields of `Pattern` that the scan writes. -/
structure Pattern where
  patternHandle : Nat
  isSymbol : Bool
  hasGradients : Bool
  hasPatterns : Bool
  hasAlpha : Bool
deriving DecidableEq

/-- Modelled from the spec: `PatternCollection::Add` is defined outside the
sources at hand; the spec has it register a pattern unless a pattern of the same
identity was seen before, and report whether it was added.  A new record carries
no feature flag. -/
def PatternCollection.Add (patterns : List Pattern) (patternHandle : Nat) (isSymbol : Bool) :
    Bool × List Pattern :=
  if patterns.any (fun q => q.patternHandle = patternHandle) then (false, patterns)
  else
    (true, patterns ++ [{ patternHandle := patternHandle, isSymbol := isSymbol,
                          hasGradients := false, hasPatterns := false, hasAlpha := false }])

/-- Modelled from the spec: `PatternCollection::Find` is defined outside the
sources at hand; it returns the record registered for the pattern. -/
def PatternCollection.Find (patterns : List Pattern) (patternHandle : Nat) : Option Pattern :=
  patterns.find? (fun q => q.patternHandle = patternHandle)

/-- The three assignments through `Pattern* pattern = patterns.Find(handle)`: the
record of the pattern takes the feature flags of `symbolLayer`. -/
def PatternCollection.setFlags (patterns : List Pattern) (patternHandle : Nat)
    (symbolLayer : Layer) : List Pattern :=
  patterns.map (fun q =>
    if q.patternHandle = patternHandle then
      { q with hasGradients := symbolLayer.hasGradients
               hasPatterns := symbolLayer.hasPatterns
               hasAlpha := symbolLayer.hasAlpha }
    else q)

/-- One `if (style.…Paint) switch (… .color.kind)` block of the scan. -/
def scanPaint (paint : Bool) (kind : AIColorTag) (pattern : Nat) (layer : Layer)
    (patterns : List Pattern) : Layer × List Pattern :=
  if paint then
    match kind with
    | kPattern =>
      ({ layer with hasPatterns := true }, (PatternCollection.Add patterns pattern false).2)
    | kGradient => ({ layer with hasGradients := true }, patterns)
    | _ => (layer, patterns)
  else (layer, patterns)

/-- The opacity test and the fill and stroke blocks of the scan, for one art. -/
def scanStyle (attr : ArtAttr) (layer : Layer) (patterns : List Pattern) :
    Layer × List Pattern :=
  let layer1 := if attr.opacity ≠ 1 then { layer with hasAlpha := true } else layer
  let r := scanPaint attr.style.fillPaint attr.style.fillKind attr.style.fillPattern
    layer1 patterns
  scanPaint attr.style.strokePaint attr.style.strokeKind attr.style.strokePattern r.1 r.2

/-- `ScanLayerArtwork`, on the layer accumulator and the pattern registry.
`UpdateBounds` is defined outside the modelled sources and `newLayer` is what the
constructor `Layer::Layer()` builds.  The loop is a `do … while`: its body also
runs for a `NULL` handle.  The host queries then fail and leave the caller's
variables as they were: `attr`, `type` and `childArtHandle` at their initial 0 and
the sibling handle at `NULL`; `artBounds` and `style` are not initialised; `nullArt`
stands for what `artBounds`, the returned opacity and `style` hold then. -/
def ScanLayerArtwork (UpdateBounds : AIRealRect → AIRealRect → AIRealRect) (newLayer : Layer)
    (nullArt : ArtAttr) : Art → Nat → Layer → List Pattern → Layer × List Pattern
  | Art.null, _, layer, patterns =>
    scanStyle nullArt { layer with bounds := UpdateBounds nullArt.bounds layer.bounds } patterns
  | Art.art attr patternArt resultChild firstChild sibling, depth, layer, patterns =>
    let r :=
      if attr.hidden then (layer, patterns)
      else
        let layer1 := { layer with bounds := UpdateBounds attr.bounds layer.bounds }
        let r1 :=
          if attr.type = kSymbolArt then
            let added := PatternCollection.Add patterns attr.symbolPattern true
            if added.1 then
              let s := ScanLayerArtwork UpdateBounds newLayer nullArt patternArt (depth + 1)
                newLayer added.2
              (layer1, PatternCollection.setFlags s.2 attr.symbolPattern s.1)
            else (layer1, added.2)
          else if attr.type = kPluginArt then
            ScanLayerArtwork UpdateBounds newLayer nullArt resultChild (depth + 1) layer1 patterns
          else (layer1, patterns)
        let r2 := scanStyle attr r1.1 r1.2
        match firstChild with
        | Art.null => r2
        | Art.art _ _ _ _ _ =>
          ScanLayerArtwork UpdateBounds newLayer nullArt firstChild (depth + 1) r2.1 r2.2
    match sibling with
    | Art.null => r
    | Art.art _ _ _ _ _ => ScanLayerArtwork UpdateBounds newLayer nullArt sibling depth r.1 r.2

/-- What the host answers about one layer of the document: its handle, whether it
is visible, its title, and the handle and the tree of its first art. -/
structure AILayer where
  layerHandle : Nat
  visible : Bool
  title : String
  artHandle : Nat
  firstArt : Art

/-- Modelled from the spec: `AddLayer` is defined outside the sources at hand; the
spec has one `Layer` record created per visible layer during the scan.  The new
record is what `Layer::Layer()` builds (`newLayer`), with the handle and the title
of the host layer; `ScanDocument` appends it to `layers`. -/
def AddLayer (newLayer : Layer) (hostLayer : AILayer) : Layer :=
  { newLayer with layerHandle := hostLayer.layerHandle, name := hostLayer.title }

/-- `ScanLayer`: remember the first art of the layer and scan its tree. -/
def ScanLayer (UpdateBounds : AIRealRect → AIRealRect → AIRealRect) (newLayer : Layer)
    (nullArt : ArtAttr) (hostLayer : AILayer) (layer : Layer) (patterns : List Pattern) :
    Layer × List Pattern :=
  ScanLayerArtwork UpdateBounds newLayer nullArt hostLayer.firstArt 1
    { layer with artHandle := hostLayer.artHandle } patterns

/-- The `for (long i = layerCount - 1; i > -1; i--)` loop of `ScanDocument`,
entered with `i + 1` at the given counter: host layers `i, i-1, …, 0` are still
to visit. -/
def ScanDocumentLoop (UpdateBounds : AIRealRect → AIRealRect → AIRealRect) (newLayer : Layer)
    (nullArt : ArtAttr) (host : List AILayer) :
    Nat → List Layer × List Pattern → List Layer × List Pattern
  | 0, state => state
  | i + 1, state =>
    match host[i]? with
    | none => state
    | some hostLayer =>
      if hostLayer.visible then
        let r := ScanLayer UpdateBounds newLayer nullArt hostLayer (AddLayer newLayer hostLayer)
          state.2
        ScanDocumentLoop UpdateBounds newLayer nullArt host i (state.1 ++ [r.1], r.2)
      else ScanDocumentLoop UpdateBounds newLayer nullArt host i state

/-- `ScanDocument`: the document's `layers` and the pattern registry after the
scan of the host layers `host` (index 0 first). -/
def ScanDocument (UpdateBounds : AIRealRect → AIRealRect → AIRealRect) (newLayer : Layer)
    (nullArt : ArtAttr) (host : List AILayer) : List Layer × List Pattern :=
  ScanDocumentLoop UpdateBounds newLayer nullArt host host.length ([], [])

/-- The layer accumulator that a scan of the layer's own art yields, computed
without the pattern registry and without looking at the art of any symbol
pattern: hidden art is skipped with its subtree, and the result group of a
plug-in, the children and the siblings are followed. -/
def scanOwnArtwork (UpdateBounds : AIRealRect → AIRealRect → AIRealRect) (nullArt : ArtAttr) :
    Art → Layer → Layer
  | Art.null, layer =>
    (scanStyle nullArt { layer with bounds := UpdateBounds nullArt.bounds layer.bounds } []).1
  | Art.art attr _ resultChild firstChild sibling, layer =>
    let r :=
      if attr.hidden then layer
      else
        let layer1 := { layer with bounds := UpdateBounds attr.bounds layer.bounds }
        let r1 :=
          if attr.type = kSymbolArt then layer1
          else if attr.type = kPluginArt then
            scanOwnArtwork UpdateBounds nullArt resultChild layer1
          else layer1
        let r2 := (scanStyle attr r1 []).1
        match firstChild with
        | Art.null => r2
        | Art.art _ _ _ _ _ => scanOwnArtwork UpdateBounds nullArt firstChild r2
    match sibling with
    | Art.null => r
    | Art.art _ _ _ _ _ => scanOwnArtwork UpdateBounds nullArt sibling r

/-- A recursive call of the scan that is made only for a handle other than `NULL`:
the descent `if (childArtHandle)` and the loop test `while (artHandle != NULL)`. -/
def ScanLayerArtwork.unlessNull (UpdateBounds : AIRealRect → AIRealRect → AIRealRect)
    (newLayer : Layer) (nullArt : ArtAttr) (handle : Art) (depth : Nat)
    (r : Layer × List Pattern) : Layer × List Pattern :=
  match handle with
  | Art.null => r
  | Art.art _ _ _ _ _ => ScanLayerArtwork UpdateBounds newLayer nullArt handle depth r.1 r.2

/-- The symbol and plug-in branches of the loop body, after the bounds update. -/
def ScanLayerArtwork.special (UpdateBounds : AIRealRect → AIRealRect → AIRealRect)
    (newLayer : Layer) (nullArt : ArtAttr) (attr : ArtAttr) (patternArt resultChild : Art)
    (depth : Nat) (layer1 : Layer) (patterns : List Pattern) : Layer × List Pattern :=
  if attr.type = kSymbolArt then
    let added := PatternCollection.Add patterns attr.symbolPattern true
    if added.1 then
      let s := ScanLayerArtwork UpdateBounds newLayer nullArt patternArt (depth + 1)
        newLayer added.2
      (layer1, PatternCollection.setFlags s.2 attr.symbolPattern s.1)
    else (layer1, added.2)
  else if attr.type = kPluginArt then
    ScanLayerArtwork UpdateBounds newLayer nullArt resultChild (depth + 1) layer1 patterns
  else (layer1, patterns)

/-- The loop body for one art object, up to the step to the sibling. -/
def ScanLayerArtwork.visit (UpdateBounds : AIRealRect → AIRealRect → AIRealRect)
    (newLayer : Layer) (nullArt : ArtAttr) (attr : ArtAttr)
    (patternArt resultChild firstChild : Art) (depth : Nat) (layer : Layer)
    (patterns : List Pattern) : Layer × List Pattern :=
  if attr.hidden then (layer, patterns)
  else
    let r1 := ScanLayerArtwork.special UpdateBounds newLayer nullArt attr patternArt resultChild
      depth { layer with bounds := UpdateBounds attr.bounds layer.bounds } patterns
    ScanLayerArtwork.unlessNull UpdateBounds newLayer nullArt firstChild (depth + 1)
      (scanStyle attr r1.1 r1.2)

/-- The counterpart of `ScanLayerArtwork.unlessNull` for `scanOwnArtwork`. -/
def scanOwnArtwork.unlessNull (UpdateBounds : AIRealRect → AIRealRect → AIRealRect)
    (nullArt : ArtAttr) (handle : Art) (layer : Layer) : Layer :=
  match handle with
  | Art.null => layer
  | Art.art _ _ _ _ _ => scanOwnArtwork UpdateBounds nullArt handle layer

/-- The counterpart of `ScanLayerArtwork.visit` for `scanOwnArtwork`. -/
def scanOwnArtwork.visit (UpdateBounds : AIRealRect → AIRealRect → AIRealRect)
    (nullArt : ArtAttr) (attr : ArtAttr) (resultChild firstChild : Art) (layer : Layer) :
    Layer :=
  if attr.hidden then layer
  else
    let layer1 := { layer with bounds := UpdateBounds attr.bounds layer.bounds }
    let r1 :=
      if attr.type = kSymbolArt then layer1
      else if attr.type = kPluginArt then scanOwnArtwork UpdateBounds nullArt resultChild layer1
      else layer1
    scanOwnArtwork.unlessNull UpdateBounds nullArt firstChild (scanStyle attr r1 []).1

/-- The art paints its fill or its stroke with a gradient. -/
def paintsGradient (attr : ArtAttr) : Bool :=
  (attr.style.fillPaint && decide (attr.style.fillKind = kGradient)) ||
    (attr.style.strokePaint && decide (attr.style.strokeKind = kGradient))

/-- A scan entered at this handle meets an art painted with a gradient: the art
itself if it is not hidden, or one met in its plug-in result group, among its
children or among its siblings.  The art of symbol patterns is not looked at; a
`NULL` handle counts with the style that `nullArt` stands for. -/
def scansGradient (nullArt : ArtAttr) : Art → Bool
  | Art.null => paintsGradient nullArt
  | Art.art attr _ resultChild firstChild sibling =>
    (!attr.hidden &&
      (paintsGradient attr ||
        (decide (attr.type ≠ kSymbolArt) && decide (attr.type = kPluginArt) &&
          scansGradient nullArt resultChild) ||
        (match firstChild with
          | Art.null => false
          | Art.art _ _ _ _ _ => scansGradient nullArt firstChild))) ||
    (match sibling with
      | Art.null => false
      | Art.art _ _ _ _ _ => scansGradient nullArt sibling)

/-- The part of `scansGradient` for a handle followed only when it is not `NULL`. -/
def scansGradient.unlessNull (nullArt : ArtAttr) (handle : Art) : Bool :=
  match handle with
  | Art.null => false
  | Art.art _ _ _ _ _ => scansGradient nullArt handle

/-- What `Layer::Layer()` is taken to build in concrete evaluations: no feature
flag, no crop, the bounds at the inverted sentinel. -/
def Layer.fresh : Layer :=
  { layerHandle := 0, name := "", bounds := sentinelBounds, artHandle := 0, crop := false,
    hasAlpha := false, hasGradients := false, hasPatterns := false }

/-- A path style that paints nothing. -/
def AIPathStyle.none : AIPathStyle :=
  { fillPaint := false, fillKind := kNoneColor, fillPattern := 0,
    strokePaint := false, strokeKind := kNoneColor, strokePattern := 0 }

/-- A visible, opaque path with the given bounds that paints nothing. -/
def ArtAttr.plain (bounds : AIRealRect) : ArtAttr :=
  { hidden := false, bounds := bounds, type := kPathArt, symbolPattern := 0, opacity := 1,
    style := AIPathStyle.none }

/-- A visible, opaque path with the given bounds, filled with a gradient. -/
def ArtAttr.gradient (bounds : AIRealRect) : ArtAttr :=
  { ArtAttr.plain bounds with
    style := { AIPathStyle.none with fillPaint := true, fillKind := kGradient } }

/-- A visible instance of the symbol with pattern 7, with the given bounds. -/
def ArtAttr.symbol (bounds : AIRealRect) : ArtAttr :=
  { ArtAttr.plain bounds with type := kSymbolArt, symbolPattern := 7 }

/-- Values for the locals of a scan of a `NULL` handle, for concrete evaluations:
bounds `wideBounds`, a gradient fill. -/
def ArtAttr.sampleNull : ArtAttr :=
  { ArtAttr.gradient wideBounds with type := kUnknownArt }

/-- A symbol instance with bounds `squareBounds` whose symbol pattern holds one
path filled with a gradient, with bounds `wideBounds`. -/
def Art.sampleSymbol : Art :=
  Art.art (ArtAttr.symbol squareBounds)
    (Art.art (ArtAttr.gradient wideBounds) Art.null Art.null Art.null Art.null)
    Art.null Art.null Art.null

/-- A symbol instance with bounds `squareBounds` whose symbol pattern has no art. -/
def Art.sampleEmptySymbol : Art :=
  Art.art (ArtAttr.symbol squareBounds) Art.null Art.null Art.null Art.null

/-- Three host layers, the middle one invisible, with handles 10, 11, 12. -/
def sampleHost : List AILayer :=
  [{ layerHandle := 10, visible := true, title := "Background(origin:ul);", artHandle := 1,
     firstArt := Art.art (ArtAttr.plain wideBounds) Art.null Art.null Art.null Art.null },
   { layerHandle := 11, visible := false, title := "Hidden", artHandle := 2,
     firstArt := Art.art (ArtAttr.plain wideBounds) Art.null Art.null Art.null Art.null },
   { layerHandle := 12, visible := true, title := "Circle(crop:yes);", artHandle := 3,
     firstArt := Art.sampleSymbol }]

/-! ## `ParseLayers` -/

/-- The callees, constants and constructed objects that `ParseLayers` takes from
outside the modelled sources: the string utilities, `strtod`, `UpdateBounds`, the
object that `Function::Function()` builds and the handle of the main canvas. -/
structure Helpers where
  Tokenize : String → String → List String
  strtod : String → AIReal
  CleanString : String → Bool → String
  CleanParameter : String → String
  ToLower : String → String
  UpdateBounds : AIRealRect → AIRealRect → AIRealRect
  base : Function
  mainCanvas : Nat

/-- The body of the `for` loop of `ParseLayers` (the draw-function block, the only
one of the TypeScript document and the `else` block of the HTML document) for
layer `i` of the store.  `parseLayerName` is the `ParseLayerName` of the document
class.  The function that `AddDrawFunction` returns is updated in place. -/
def ParseLayer (env : Helpers) (parseLayerName : String → String → String × String)
    (i : Nat) (state : FunctionCollection × List Layer) :
    Option (FunctionCollection × List Layer) :=
  match state.2[i]? with
  | none => none
  | some layer =>
    let parsed := parseLayerName layer.name ""
    let options := env.Tokenize parsed.2 ";"
    match state.1.AddDrawFunction env.base parsed.1 with
    | none => none
    | some added =>
      match added.2.functions[added.1]? with
      | none => none
      | some drawFunction =>
        let function : DrawFunction :=
          { drawFunction with
            layers := drawFunction.layers ++ [i]
            hasAlpha := drawFunction.hasAlpha || layer.hasAlpha
            hasGradients := drawFunction.hasGradients || layer.hasGradients
            hasPatterns := drawFunction.hasPatterns || layer.hasPatterns
            canvas := env.mainCanvas
            bounds := env.UpdateBounds layer.bounds drawFunction.bounds }
        match SetFunctionOptions env.Tokenize env.strtod env.CleanParameter env.ToLower options
            function state.2 with
        | none => none
        | some r =>
          some ({ added.2 with functions := added.2.functions.set added.1 r.1 }, r.2)

/-- The `for` loop of `ParseLayers`: `count` layers are still to parse, the next
one is layer `i`. -/
def ParseLayersLoop (env : Helpers) (parseLayerName : String → String → String × String) :
    Nat → Nat → FunctionCollection × List Layer → Option (FunctionCollection × List Layer)
  | 0, _, state => some state
  | count + 1, i, state =>
    match ParseLayer env parseLayerName i state with
    | none => none
    | some next => ParseLayersLoop env parseLayerName count (i + 1) next

/-- `ParseLayers`, on the function collection of the document and its layers. -/
def ParseLayers (env : Helpers) (parseLayerName : String → String → String × String)
    (functions : FunctionCollection) (layers : List Layer) :
    Option (FunctionCollection × List Layer) :=
  ParseLayersLoop env parseLayerName layers.length 0 (functions, layers)

/-- The logical OR of a feature flag over the layers that the pointers `members`
point to. -/
def flagOr (store : List Layer) (flag : Layer → Bool) (members : List Nat) : Bool :=
  members.any (fun i =>
    match store[i]? with
    | some layer => flag layer
    | none => false)

/-- A stand-in for `CleanString` in concrete evaluations: it turns every letter
into lower case. -/
def cleanStringLower (s : String) (_ : Bool) : String :=
  String.mk (s.data.map Char.toLower)

/-- Helpers for concrete evaluations. -/
def Helpers.sample : Helpers :=
  { Tokenize := CanvasExport.Tokenize, strtod := strtodZero, CleanString := cleanStringLower,
    CleanParameter := cleanId, ToLower := cleanId, UpdateBounds := CanvasExport.UpdateBounds,
    base := Function.sample, mainCanvas := 1 }

/-- Two scanned layers named as in the end-to-end scenario of the spec, without a
trailing semicolon. -/
def scenarioLayers : List Layer :=
  [{ Layer.sampleWith wideBounds false with name := "Background(origin:ul)" },
   { Layer.sampleWith squareBounds false with name := "Circle(rasterize:circle.png;crop:yes)" }]

/-- The background layer of the scenario with the function syntax closed by `;`,
with bounds `wideBounds`. -/
def scenarioBackground : Layer :=
  { Layer.sampleWith wideBounds false with name := "Background(origin:ul);" }

/-- The circle layer of the scenario with the function syntax closed by `;`, with
bounds `squareBounds`. -/
def scenarioCircle : Layer :=
  { Layer.sampleWith squareBounds false with name := "Circle(rasterize:circle.png;crop:yes);" }

/-- What the end-to-end scenario takes the helpers defined outside the sources to
do on its own words: `Tokenize` splits the two option texts at `;` and the three
options at `:`, `CleanString` turns `Background` and `Circle` into `background` and
`circle`, and `CleanParameter` and `ToLower` leave the six option words as they
are. -/
def scenarioHelpers (env : Helpers) : Prop :=
  env.Tokenize "origin:ul" ";" = ["origin:ul"] ∧
  env.Tokenize "origin:ul" ":" = ["origin", "ul"] ∧
  env.Tokenize "rasterize:circle.png;crop:yes" ";" = ["rasterize:circle.png", "crop:yes"] ∧
  env.Tokenize "rasterize:circle.png" ":" = ["rasterize", "circle.png"] ∧
  env.Tokenize "crop:yes" ":" = ["crop", "yes"] ∧
  env.CleanString "Background" true = "background" ∧
  env.CleanString "Circle" true = "circle" ∧
  (∀ s ∈ ["origin", "ul", "rasterize", "circle.png", "crop", "yes"], env.CleanParameter s = s) ∧
  (∀ s ∈ ["origin", "rasterize", "crop"], env.ToLower s = s)

/-- The draw function `g` differs from `f` at most in the fields that options set. -/
def optionsOnly (f g : Function) : Prop :=
  g = { f with
        translateOrigin := g.translateOrigin
        translateOriginH := g.translateOriginH
        translateOriginV := g.translateOriginV
        rasterizeFileName := g.rasterizeFileName
        crop := g.crop }

/-- The layers `b` differ from the layers `a` at most in their crop flags. -/
def cropOnly (a b : List Layer) : Prop :=
  b.map (fun l => { l with crop := false }) = a.map (fun l => { l with crop := false })

/-- What holds of the function collection and the layers once `ParseLayers` has
parsed the first `k` layers: every function is a draw function; each feature flag
of a function is the OR of the flag over its member layers; and the layer lists
of the functions, read one after another, are the layers `0, …, k - 1`. -/
def ParseInvariant (k : Nat) (state : FunctionCollection × List Layer) : Prop :=
  (∀ f ∈ state.1.functions, f.type = kDrawFunction) ∧
  (∀ f ∈ state.1.functions,
    f.hasAlpha = flagOr state.2 (fun l => l.hasAlpha) f.layers ∧
    f.hasGradients = flagOr state.2 (fun l => l.hasGradients) f.layers ∧
    f.hasPatterns = flagOr state.2 (fun l => l.hasPatterns) f.layers) ∧
  (state.1.functions.map (fun f => f.layers)).flatten = List.range k

/-! # Theorems -/

/-! ## Lemmas on decimal rendering -/

theorem digitChar_inj_of_lt : ∀ a < 10, ∀ b < 10, Nat.digitChar a = Nat.digitChar b → a = b := by
  decide

theorem map_digitChar_inj : ∀ (l₁ l₂ : List Nat), (∀ d ∈ l₁, d < 10) → (∀ d ∈ l₂, d < 10) →
    l₁.map Nat.digitChar = l₂.map Nat.digitChar → l₁ = l₂
  | [], [], _, _, _ => rfl
  | [], _ :: _, _, _, h => by simp at h
  | _ :: _, [], _, _, h => by simp at h
  | a :: l₁, b :: l₂, h₁, h₂, h => by
    simp only [List.map_cons, List.cons.injEq] at h
    have hab : a = b := digitChar_inj_of_lt a (h₁ a (by simp)) b (h₂ b (by simp)) h.1
    have := map_digitChar_inj l₁ l₂ (fun d hd => h₁ d (by simp [hd]))
      (fun d hd => h₂ d (by simp [hd])) h.2
    rw [hab, this]

theorem decimal_inj_of_pos {a b : Nat} (ha : 0 < a) (hb : 0 < b) (h : decimal a = decimal b) :
    a = b := by
  unfold decimal at h
  rw [if_neg (Nat.pos_iff_ne_zero.mp ha), if_neg (Nat.pos_iff_ne_zero.mp hb)] at h
  have h1 : List.map Nat.digitChar (Nat.digits 10 a).reverse =
      List.map Nat.digitChar (Nat.digits 10 b).reverse := congrArg String.data h

  have h2 := map_digitChar_inj _ _
    (fun d hd => Nat.digits_lt_base (by norm_num) (List.mem_reverse.mp hd))
    (fun d hd => Nat.digits_lt_base (by norm_num) (List.mem_reverse.mp hd)) h1
  exact Nat.digits_inj_iff.mp (List.reverse_injective h2)

theorem append_left_cancel_string {s x y : String} (h : s ++ x = s ++ y) : x = y := by
  have h1 := congrArg String.data h
  simp only [String.data_append] at h1
  exact String.ext (List.append_cancel_left h1)

/-! ## Lemmas on `Find` -/

theorem FindLoop_some {fs : List Function} {n : String} {t : FunctionType} :
    ∀ {i j : Nat}, FindLoop fs n t i = some j →
      j < i ∧ (∃ f, fs[j]? = some f ∧ FindMatches n t f) ∧
        ∀ k g, j < k → k < i → fs[k]? = some g → ¬ FindMatches n t g
  | 0, j, h => by simp [FindLoop] at h
  | i + 1, j, h => by
    unfold FindLoop at h
    cases hf : fs[i]? with
    | none => simp [hf] at h
    | some f =>
      simp only [hf] at h
      by_cases hm : (f.type = t ∨ f.type = kAnyFunction) ∧ f.name = n
      · rw [if_pos hm] at h
        have hj : i = j := Option.some.inj h
        subst hj
        exact ⟨Nat.lt_succ_self _, ⟨f, hf, hm⟩, fun k g h1 h2 => by omega⟩
      · rw [if_neg hm] at h
        obtain ⟨h1, h2, h3⟩ := FindLoop_some h
        refine ⟨Nat.lt_succ_of_lt h1, h2, fun k g hk1 hk2 hg => ?_⟩
        by_cases hki : k = i
        · subst hki
          rw [hf] at hg
          have : f = g := Option.some.inj hg
          subst this
          exact hm
        · exact h3 k g hk1 (by omega) hg

theorem FindLoop_none {fs : List Function} {n : String} {t : FunctionType} :
    ∀ {i : Nat}, i ≤ fs.length → FindLoop fs n t i = none →
      ∀ k g, k < i → fs[k]? = some g → ¬ FindMatches n t g
  | 0, _, _ => fun k g hk => by omega
  | i + 1, hi, h => by
    unfold FindLoop at h
    have hlt : i < fs.length := hi
    rw [List.getElem?_eq_getElem hlt] at h
    simp only at h
    by_cases hm : ((fs[i]).type = t ∨ (fs[i]).type = kAnyFunction) ∧ (fs[i]).name = n
    · rw [if_pos hm] at h
      exact absurd h (by simp)
    · rw [if_neg hm] at h
      intro k g hk hg
      by_cases hki : k = i
      · subst hki
        rw [List.getElem?_eq_getElem hlt] at hg
        have : fs[k] = g := Option.some.inj hg
        subst this
        exact hm
      · exact FindLoop_none (Nat.le_of_lt hlt) h k g (by omega) hg

theorem Find_isSome_mem_names {c : FunctionCollection} {n : String} {t : FunctionType}
    (h : (c.Find n t).isSome = true) : n ∈ c.functions.map (fun f => f.name) := by
  obtain ⟨j, hj⟩ := Option.isSome_iff_exists.mp h
  obtain ⟨_, ⟨f, hf, hm⟩, _⟩ := FindLoop_some hj
  exact List.mem_map.mpr ⟨f, List.getElem?_mem hf, hm.2⟩

/-! ## The uniquifying loop stops -/

theorem CreateUniqueNameLoop_none {c : FunctionCollection} {s : String} :
    ∀ {fuel k : Nat}, CreateUniqueNameLoop c s fuel k = none →
      ∀ j, k < j → j ≤ k + fuel → s ++ decimal j ∈ c.functions.map (fun f => f.name)
  | 0, k, _ => fun j h1 h2 => by omega
  | fuel + 1, k, h => by
    unfold CreateUniqueNameLoop at h
    simp only at h
    by_cases hs : (c.Find (s ++ decimal (k + 1)) kAnyFunction).isSome = true
    · rw [if_pos hs] at h
      intro j h1 h2
      by_cases hj : j = k + 1
      · subst hj
        exact Find_isSome_mem_names hs
      · exact CreateUniqueNameLoop_none h j (by omega) (by omega)
    · rw [if_neg hs] at h
      exact absurd h (by simp)

theorem CreateUniqueNameLoop_isSome (c : FunctionCollection) (s : String) :
    (CreateUniqueNameLoop c s (c.functions.length + 1) 0).isSome = true := by
  by_contra hcon
  have hnone : CreateUniqueNameLoop c s (c.functions.length + 1) 0 = none := by
    cases h : CreateUniqueNameLoop c s (c.functions.length + 1) 0 with
    | none => rfl
    | some v => simp [h] at hcon
  have hmem := CreateUniqueNameLoop_none hnone
  let L : List String := (List.range (c.functions.length + 1)).map (fun j => s ++ decimal (j + 1))
  have hnodup : L.Nodup := by
    refine List.Nodup.map ?_ (List.nodup_range _)
    intro a b hab
    have := decimal_inj_of_pos (Nat.succ_pos a) (Nat.succ_pos b) (append_left_cancel_string hab)
    omega
  have hsub : L ⊆ c.functions.map (fun f => f.name) := by
    intro x hx
    obtain ⟨j, hj, rfl⟩ := List.mem_map.mp hx
    have hj2 := List.mem_range.mp hj
    exact hmem (j + 1) (by omega) (by omega)
  have hlen := (hnodup.subperm hsub).length_le
  simp [L] at hlen

theorem CreateUniqueName_isSome (c : FunctionCollection) (n : String) :
    (c.CreateUniqueName n).isSome = true := by
  unfold FunctionCollection.CreateUniqueName
  split
  · exact CreateUniqueNameLoop_isSome c n
  · rfl

/-! ## Lemmas on `FindDrawFunction` -/

theorem FindDrawFunctionLoop_found {fs : List Function} {n : String} {j : Nat} {f : Function}
    (hf : fs[j]? = some f) (hd : f.type = kDrawFunction)
    (hm : f.name = n ∨ f.requestedName = n) :
    ∀ (i : Nat), j < i → i ≤ fs.length →
      (∀ k g, j < k → k < i → fs[k]? = some g → g.type ≠ kDrawFunction) →
      ∀ passed, FindDrawFunctionLoop fs n i passed = (some j, passed)
  | 0, h, _, _ => by omega
  | i + 1, hji, hi, hno => by
    intro passed
    unfold FindDrawFunctionLoop
    have hlt : i < fs.length := hi
    by_cases hij : j = i
    · subst hij
      simp only [hf]
      rw [if_pos hd, if_pos hm]
    · rw [List.getElem?_eq_getElem hlt]
      simp only
      have hnd : (fs[i]).type ≠ kDrawFunction :=
        hno i _ (by omega) (Nat.lt_succ_self _) (List.getElem?_eq_getElem hlt)
      rw [if_neg hnd]
      exact FindDrawFunctionLoop_found hf hd hm i (by omega) (Nat.le_of_lt hlt)
        (fun k g h1 h2 h3 => hno k g h1 (by omega) h3) passed

theorem FindDrawFunctionLoop_passed (fs : List Function) (n : String) :
    ∀ (i : Nat), (FindDrawFunctionLoop fs n i true).2 = true
  | 0 => rfl
  | i + 1 => by
    unfold FindDrawFunctionLoop
    cases hf : fs[i]? with
    | none => rfl
    | some f =>
      simp only
      split
      · split
        · rfl
        · exact FindDrawFunctionLoop_passed fs n i
      · exact FindDrawFunctionLoop_passed fs n i

theorem FindDrawFunctionLoop_some {fs : List Function} {n : String} :
    ∀ {i j : Nat} {p q : Bool}, FindDrawFunctionLoop fs n i p = (some j, q) →
      j < i ∧ ∃ f, fs[j]? = some f ∧ f.type = kDrawFunction ∧
        (f.name = n ∨ f.requestedName = n) ∧
        (q = false → ∀ k g, j < k → k < i → fs[k]? = some g → g.type ≠ kDrawFunction)
  | 0, j, p, q, h => by simp [FindDrawFunctionLoop] at h
  | i + 1, j, p, q, h => by
    unfold FindDrawFunctionLoop at h
    cases hf : fs[i]? with
    | none => simp [hf] at h
    | some f =>
      simp only [hf] at h
      by_cases hd : f.type = kDrawFunction
      · rw [if_pos hd] at h
        by_cases hm : f.name = n ∨ f.requestedName = n
        · rw [if_pos hm] at h
          have hij : i = j := Option.some.inj (congrArg Prod.fst h)
          subst hij
          exact ⟨Nat.lt_succ_self _, f, hf, hd, hm, fun _ k g h1 h2 => by omega⟩
        · rw [if_neg hm] at h
          obtain ⟨h1, g, hg, hgd, hgm, _⟩ := FindDrawFunctionLoop_some h
          refine ⟨Nat.lt_succ_of_lt h1, g, hg, hgd, hgm, fun hq => ?_⟩
          have := FindDrawFunctionLoop_passed fs n i
          rw [h] at this
          simp [hq] at this
      · rw [if_neg hd] at h
        obtain ⟨h1, g, hg, hgd, hgm, hno⟩ := FindDrawFunctionLoop_some h
        refine ⟨Nat.lt_succ_of_lt h1, g, hg, hgd, hgm, fun hq k g2 hk1 hk2 hg2 => ?_⟩
        by_cases hki : k = i
        · subst hki
          rw [hf] at hg2
          have : f = g2 := Option.some.inj hg2
          subst this
          exact hd
        · exact hno hq k g2 hk1 (by omega) hg2

theorem isMostRecentDraw_iff {c : FunctionCollection} {i : Nat} {f : Function}
    (hf : c.functions[i]? = some f) :
    isMostRecentDraw c i = true ↔
      f.type = kDrawFunction ∧
        ∀ k g, i < k → c.functions[k]? = some g → g.type ≠ kDrawFunction := by
  unfold isMostRecentDraw
  simp only [hf, Bool.and_eq_true, decide_eq_true_eq, List.all_eq_true]
  constructor
  · rintro ⟨h1, h2⟩
    refine ⟨h1, fun k g hk hg => h2 g ?_⟩
    have : (c.functions.drop (i + 1))[k - (i + 1)]? = some g := by
      rw [List.getElem?_drop]
      have : i + 1 + (k - (i + 1)) = k := by omega
      rw [this]; exact hg
    exact List.getElem?_mem this
  · rintro ⟨h1, h2⟩
    refine ⟨h1, fun g hg => ?_⟩
    obtain ⟨m, hm⟩ := List.getElem?_of_mem hg
    rw [List.getElem?_drop] at hm
    exact h2 (i + 1 + m) g (by omega) hm

theorem FindDrawFunction_reuse {c : FunctionCollection} {n : String} {i : Nat} {f : Function}
    (hf : c.functions[i]? = some f) (hr : isMostRecentDraw c i = true)
    (hm : f.name = n ∨ f.requestedName = n) : c.FindDrawFunction n = (some i, true) := by
  obtain ⟨hlt, _⟩ := List.getElem?_eq_some_iff.mp hf
  obtain ⟨hd, hno⟩ := (isMostRecentDraw_iff hf).mp hr
  unfold FunctionCollection.FindDrawFunction
  rw [if_pos (by omega)]
  have := FindDrawFunctionLoop_found hf hd hm c.functions.length hlt (Nat.le_refl _)
    (fun k g h1 _ h3 => hno k g h1 h3) false
  simp [this]

theorem FindDrawFunction_isLast {c : FunctionCollection} {n : String} {j : Nat}
    (h : c.FindDrawFunction n = (some j, true)) :
    ∃ f, c.functions[j]? = some f ∧ isMostRecentDraw c j = true ∧
      (f.name = n ∨ f.requestedName = n) := by
  unfold FunctionCollection.FindDrawFunction at h
  split at h
  · cases hr : FindDrawFunctionLoop c.functions n c.functions.length false with
    | mk r1 r2 =>
      simp only [hr, Prod.mk.injEq, Bool.and_eq_true, Bool.not_eq_true'] at h
      obtain ⟨h1, _, h2⟩ := h
      subst h1 h2
      obtain ⟨_, f, hf, hd, hm, hno⟩ := FindDrawFunctionLoop_some hr
      refine ⟨f, hf, (isMostRecentDraw_iff hf).mpr ⟨hd, fun k g hk hg => ?_⟩, hm⟩
      exact hno rfl k g hk (List.getElem?_eq_some_iff.mp hg).1 hg
  · simp at h

theorem AddDrawFunction_create (base : Function) {c : FunctionCollection} {n : String}
    (h : ∀ j, c.FindDrawFunction n ≠ (some j, true)) :
    ∃ u, c.CreateUniqueName n = some u ∧
      c.AddDrawFunction base n = some (c.functions.length,
        { functions := c.functions ++
            [{ DrawFunction.new base with requestedName := n, name := u }]
          hasDrawFunctions := true }) := by
  obtain ⟨u, hu⟩ := Option.isSome_iff_exists.mp (CreateUniqueName_isSome c n)
  refine ⟨u, hu, ?_⟩
  unfold FunctionCollection.AddDrawFunction
  cases hr : c.FindDrawFunction n with
  | mk r1 r2 =>
    cases r1 with
    | none => simp [hu]
    | some j =>
      cases r2 with
      | true => exact absurd hr (h j)
      | false => simp [hu]

/-! ## Claims on the function collection -/

/-- C1 (code as it stands): registering the requested names `a`, `b`, `a` in an
empty collection leaves three functions whose names are `a`, `b`, `a`; the first
and the third carry the same name, so the names are not pairwise distinct. -/
theorem AddDrawFunctions_duplicate_name :
    (FunctionCollection.AddDrawFunctions Function.sample FunctionCollection.new
        ["a", "b", "a"]).map (fun c => c.functions.map (fun f => f.name))
      = some ["a", "b", "a"] := by
  decide

/-- C2: `AddDrawFunction n` returns a function already stored and leaves the
collection unchanged when the most recently added draw function has `name` or
`requestedName` equal to `n`; in every other case it appends one new draw function
at the end and returns it. -/
theorem AddDrawFunction_reuse_iff (base : Function) (c : FunctionCollection) (n : String) :
    (∀ i f, c.functions[i]? = some f → isMostRecentDraw c i = true →
        (f.name = n ∨ f.requestedName = n) → c.AddDrawFunction base n = some (i, c)) ∧
    ((∀ i f, c.functions[i]? = some f → isMostRecentDraw c i = true →
        ¬ (f.name = n ∨ f.requestedName = n)) →
      ∃ d : DrawFunction, d.type = kDrawFunction ∧ d.requestedName = n ∧
        c.AddDrawFunction base n = some (c.functions.length,
          { functions := c.functions ++ [d], hasDrawFunctions := true })) := by
  constructor
  · intro i f hf hr hm
    unfold FunctionCollection.AddDrawFunction
    simp [FindDrawFunction_reuse hf hr hm]
  · intro h
    have hne : ∀ j, c.FindDrawFunction n ≠ (some j, true) := by
      intro j hj
      obtain ⟨f, hf, hr, hm⟩ := FindDrawFunction_isLast hj
      exact h j f hf hr hm
    obtain ⟨u, _, hu⟩ := AddDrawFunction_create base hne
    exact ⟨_, rfl, rfl, hu⟩

/-- C2, at the inputs of the claim: after `a`, a second `a` returns function 0 and
the collection keeps its single function; after `a`, `b`, a further `a` is
appended as a third function, at index 2. -/
theorem AddDrawFunction_reuse_iff_witness :
    sampleA.AddDrawFunction Function.sample "a" = some (0, sampleA) ∧
    (∃ d : DrawFunction, d.type = kDrawFunction ∧ d.requestedName = "a" ∧
      sampleAB.AddDrawFunction Function.sample "a" = some (2,
        { functions := sampleAB.functions ++ [d], hasDrawFunctions := true })) ∧
    FunctionCollection.AddDrawFunctions Function.sample FunctionCollection.new ["a"]
      = some sampleA ∧
    FunctionCollection.AddDrawFunctions Function.sample FunctionCollection.new ["a", "b"]
      = some sampleAB :=
  ⟨(AddDrawFunction_reuse_iff Function.sample sampleA "a").1 0 (Function.sampleDraw "a")
      rfl (by decide) (Or.inl rfl),
    (AddDrawFunction_reuse_iff Function.sample sampleAB "a").2 (by
      intro i f hf hr
      match i, hf, hr with
      | 0, _, hr => exact absurd hr (by decide)
      | 1, hf, _ =>
        have : Function.sampleDraw "b" = f := Option.some.inj hf
        subst this
        decide
      | k + 2, hf, _ => exact absurd hf (by simp [sampleAB])),
    by decide, by decide⟩

/-- C3: when no stored function has `name` or `requestedName` equal to `n`,
`AddDrawFunction n` appends a new draw function whose `name` and `requestedName`
are both `n`, and returns it. -/
theorem AddDrawFunction_fresh (base : Function) (c : FunctionCollection) (n : String)
    (h : ∀ f ∈ c.functions, f.name ≠ n ∧ f.requestedName ≠ n) :
    c.AddDrawFunction base n = some (c.functions.length,
      { functions := c.functions ++
          [{ DrawFunction.new base with requestedName := n, name := n }]
        hasDrawFunctions := true }) := by
  have hne : ∀ j, c.FindDrawFunction n ≠ (some j, true) := by
    intro j hj
    obtain ⟨f, hf, _, hm⟩ := FindDrawFunction_isLast hj
    have := h f (List.getElem?_mem hf)
    tauto
  obtain ⟨u, hu, hadd⟩ := AddDrawFunction_create base hne
  have hun : c.CreateUniqueName n = some n := by
    unfold FunctionCollection.CreateUniqueName
    rw [if_neg]
    intro hs
    obtain ⟨f, hf, hfn⟩ := List.mem_map.mp (Find_isSome_mem_names hs)
    exact (h f hf).1 hfn
  rw [hun] at hu
  rw [← Option.some.inj hu] at hadd
  exact hadd

/-- C3, on the collection holding `a` and the fresh name `b`. -/
theorem AddDrawFunction_fresh_witness :
    sampleA.AddDrawFunction Function.sample "b" = some (1, sampleAB) :=
  AddDrawFunction_fresh Function.sample sampleA "b" (by decide)

/-- C4 (code as it stands): on the collection holding the draw function `a`,
`CreateUniqueName "a"` returns `a` itself, the name of stored function 0. -/
theorem CreateUniqueName_returns_used_name :
    sampleA.CreateUniqueName "a" = some "a" ∧
      sampleA.functions.map (fun f => (f.type, f.name)) = [(kDrawFunction, "a")] := by
  decide

/-- C5 (code as it stands): on the collection holding the draw function `a`,
`Find "a" kAnyFunction` returns `NULL` although function 0 is named `a`. -/
theorem Find_kAnyFunction_misses_draw :
    sampleA.Find "a" kAnyFunction = none ∧
      sampleA.functions.map (fun f => (f.type, f.name)) = [(kDrawFunction, "a")] := by
  decide

/-- No constructor assigns the wildcard tag: `AddDrawFunction` keeps a collection
free of stored functions tagged `kAnyFunction`. -/
theorem AddDrawFunction_noWildcard {base : Function} {c : FunctionCollection} {n : String}
    {r : Nat × FunctionCollection} (h : c.AddDrawFunction base n = some r)
    (hc : ∀ f ∈ c.functions, f.type ≠ kAnyFunction) :
    ∀ f ∈ r.2.functions, f.type ≠ kAnyFunction := by
  by_cases hl : ∃ j, c.FindDrawFunction n = (some j, true)
  · obtain ⟨j, hj⟩ := hl
    unfold FunctionCollection.AddDrawFunction at h
    simp only [hj, if_true] at h
    rw [← Option.some.inj h]
    exact hc
  · obtain ⟨u, _, hu⟩ := AddDrawFunction_create base (fun j hj => hl ⟨j, hj⟩)
    rw [hu] at h
    rw [← Option.some.inj h]
    intro f hf
    rcases List.mem_append.mp hf with hf | hf
    · exact hc f hf
    · rw [List.mem_singleton.mp hf]
      simp [DrawFunction.new]

theorem AddDrawFunctions_noWildcard {base : Function} :
    ∀ (names : List String) {c r : FunctionCollection},
      FunctionCollection.AddDrawFunctions base c names = some r →
      (∀ f ∈ c.functions, f.type ≠ kAnyFunction) → ∀ f ∈ r.functions, f.type ≠ kAnyFunction
  | [], c, r, h, hc => by
    rw [← Option.some.inj h]; exact hc
  | n :: names, c, r, h, hc => by
    unfold FunctionCollection.AddDrawFunctions at h
    cases ha : c.AddDrawFunction base n with
    | none => simp [ha] at h
    | some q =>
      simp only [ha] at h
      exact AddDrawFunctions_noWildcard names h (AddDrawFunction_noWildcard ha hc)

/-- C6: on a collection none of whose stored functions carries the wildcard tag
(every collection built by `AddDrawFunction` is one), `Find n kDrawFunction`
returns function `j` exactly when `j` is the last-added function that is of type
Draw and named `n`; it returns `NULL` exactly when there is no such function, in
particular on the empty collection; and the function returned is always named
`n`, so a function matching only by `requestedName` is never returned. -/
theorem Find_kDrawFunction_spec (c : FunctionCollection) (n : String)
    (hstored : ∀ f ∈ c.functions, f.type ≠ kAnyFunction) :
    (∀ j, c.Find n kDrawFunction = some j ↔
      (∃ f, c.functions[j]? = some f ∧ f.type = kDrawFunction ∧ f.name = n) ∧
        ∀ k g, j < k → c.functions[k]? = some g → ¬ (g.type = kDrawFunction ∧ g.name = n)) ∧
    (c.Find n kDrawFunction = none ↔
      ∀ f ∈ c.functions, ¬ (f.type = kDrawFunction ∧ f.name = n)) ∧
    (∀ j f, c.Find n kDrawFunction = some j → c.functions[j]? = some f →
      f.type = kDrawFunction ∧ f.name = n) ∧
    FunctionCollection.new.Find n kDrawFunction = none := by
  have hiff : ∀ g ∈ c.functions,
      (FindMatches n kDrawFunction g ↔ g.type = kDrawFunction ∧ g.name = n) := by
    intro g hg
    unfold FindMatches
    have := hstored g hg
    tauto
  have hfwd : ∀ j, c.Find n kDrawFunction = some j →
      (∃ f, c.functions[j]? = some f ∧ f.type = kDrawFunction ∧ f.name = n) ∧
        ∀ k g, j < k → c.functions[k]? = some g →
          ¬ (g.type = kDrawFunction ∧ g.name = n) := by
    intro j hj
    obtain ⟨_, ⟨f, hf, hm⟩, hno⟩ := FindLoop_some hj
    refine ⟨⟨f, hf, (hiff f (List.getElem?_mem hf)).mp hm⟩, fun k g hk hg hgm => ?_⟩
    exact hno k g hk (List.getElem?_eq_some_iff.mp hg).1 hg
      ((hiff g (List.getElem?_mem hg)).mpr hgm)
  have hnone : c.Find n kDrawFunction = none →
      ∀ f ∈ c.functions, ¬ (f.type = kDrawFunction ∧ f.name = n) := by
    intro h f hf hfm
    obtain ⟨k, hk⟩ := List.getElem?_of_mem hf
    exact FindLoop_none (Nat.le_refl _) h k f (List.getElem?_eq_some_iff.mp hk).1 hk
      ((hiff f hf).mpr hfm)
  refine ⟨fun j => ⟨hfwd j, ?_⟩, ⟨hnone, ?_⟩, ?_, rfl⟩
  · rintro ⟨⟨f, hf, hfm⟩, hlast⟩
    cases hr : c.Find n kDrawFunction with
    | none => exact absurd hfm (hnone hr f (List.getElem?_mem hf))
    | some i =>
      obtain ⟨⟨g, hg, hgm⟩, hlast2⟩ := hfwd i hr
      rcases Nat.lt_trichotomy i j with hij | hij | hij
      · exact absurd hfm (hlast2 j f hij hf)
      · rw [hij]
      · exact absurd hgm (hlast i g hij hg)
  · intro h
    cases hr : c.Find n kDrawFunction with
    | none => rfl
    | some i =>
      obtain ⟨⟨g, hg, hgm⟩, _⟩ := hfwd i hr
      exact absurd hgm (h g (List.getElem?_mem hg))
  · intro j f hj hf
    obtain ⟨⟨g, hg, hgm⟩, _⟩ := hfwd j hj
    rw [hf] at hg
    rw [Option.some.inj hg]
    exact hgm

/-- C6, on the collection built by registering `a`, `b`. -/
theorem Find_kDrawFunction_spec_witness :
    (∀ f ∈ sampleAB.functions, f.type ≠ kAnyFunction) ∧
      sampleAB.Find "b" kDrawFunction = some 1 ∧
      sampleAB.Find "c" kDrawFunction = none :=
  ⟨by decide,
    ((Find_kDrawFunction_spec sampleAB "b" (by decide)).1 1).mpr
      ⟨⟨Function.sampleDraw "b", rfl, by decide⟩, fun k g hk hg => by
        match k, hk, hg with
        | k + 2, _, hg => exact absurd hg (by simp [sampleAB])⟩,
    (Find_kDrawFunction_spec sampleAB "c" (by decide)).2.1.mpr (by decide)⟩

/-! ## Claims on `DrawFunction::SetParameter` -/

theorem set_of_getElem? {α : Type} : ∀ (l : List α) (p : Nat) (a : α),
    l[p]? = some a → l.set p a = l
  | [], _, _, h => by simp at h
  | x :: xs, 0, a, h => by
    simp only [List.getElem?_cons_zero, Option.some.injEq] at h
    simp [h]
  | x :: xs, p + 1, a, h => by
    simp only [List.getElem?_cons_succ] at h
    simp [set_of_getElem? xs p a h]

theorem SetParameter_origin_key {Tokenize : String → String → List String}
    {strtod : String → AIReal} {key : String} (hkey : key = "origin" ∨ key = "o")
    (value : String) (f : DrawFunction) (store : List Layer) :
    SetParameter Tokenize strtod key value f store =
      some (SetParameter.origin Tokenize strtod value f, store) := by
  rcases hkey with rfl | rfl <;> simp [SetParameter]

theorem SetParameter_rasterize_key {Tokenize : String → String → List String}
    {strtod : String → AIReal} {key : String} (hkey : key = "rasterize" ∨ key = "rast")
    (value : String) (f : DrawFunction) (store : List Layer) :
    SetParameter Tokenize strtod key value f store =
      some (SetParameter.rasterize value f, store) := by
  rcases hkey with rfl | rfl <;> simp [SetParameter]

theorem SetParameter_crop_key {Tokenize : String → String → List String}
    {strtod : String → AIReal} {key : String} (hkey : key = "crop" ∨ key = "c")
    (value : String) (f : DrawFunction) (store : List Layer) :
    SetParameter Tokenize strtod key value f store = SetParameter.crop value f store := by
  rcases hkey with rfl | rfl <;> simp [SetParameter]

theorem SetParameter_other_key {Tokenize : String → String → List String}
    {strtod : String → AIReal} {key : String}
    (h1 : key ≠ "origin") (h2 : key ≠ "o") (h3 : key ≠ "rasterize") (h4 : key ≠ "rast")
    (h5 : key ≠ "crop") (h6 : key ≠ "c")
    (value : String) (f : DrawFunction) (store : List Layer) :
    SetParameter Tokenize strtod key value f store = some (f, store) := by
  simp [SetParameter, h1, h2, h3, h4, h5, h6]

/-- C7: with key `origin` or `o`, each recognised literal sets the origin fields
as listed: `normal`/`n` clears `translateOrigin`; `center`/`c` sets it with
(0.5, 0.5); `upper-left`/`ul` with (0, 0); `upper-right`/`ur` with (1, 0);
`lower-right`/`lr` with (1, 1); `lower-left`/`ll` with (0, 1).  Nothing else
changes. -/
theorem SetParameter_origin_literals (Tokenize : String → String → List String)
    (strtod : String → AIReal) (key : String) (f : DrawFunction) (store : List Layer)
    (hkey : key = "origin" ∨ key = "o") :
    (∀ v, v = "normal" ∨ v = "n" →
      SetParameter Tokenize strtod key v f store =
        some ({ f with translateOrigin := false }, store)) ∧
    (∀ v, v = "center" ∨ v = "c" →
      SetParameter Tokenize strtod key v f store =
        some ({ f with translateOrigin := true, translateOriginH := 0.5,
                       translateOriginV := 0.5 }, store)) ∧
    (∀ v, v = "upper-left" ∨ v = "ul" →
      SetParameter Tokenize strtod key v f store =
        some ({ f with translateOrigin := true, translateOriginH := 0,
                       translateOriginV := 0 }, store)) ∧
    (∀ v, v = "upper-right" ∨ v = "ur" →
      SetParameter Tokenize strtod key v f store =
        some ({ f with translateOrigin := true, translateOriginH := 1,
                       translateOriginV := 0 }, store)) ∧
    (∀ v, v = "lower-right" ∨ v = "lr" →
      SetParameter Tokenize strtod key v f store =
        some ({ f with translateOrigin := true, translateOriginH := 1,
                       translateOriginV := 1 }, store)) ∧
    (∀ v, v = "lower-left" ∨ v = "ll" →
      SetParameter Tokenize strtod key v f store =
        some ({ f with translateOrigin := true, translateOriginH := 0,
                       translateOriginV := 1 }, store)) := by
  refine ⟨?_, ?_, ?_, ?_, ?_, ?_⟩ <;> intro v hv <;>
    rw [SetParameter_origin_key hkey] <;> rcases hv with rfl | rfl <;>
    simp [SetParameter.origin]

/-- C7, for key `o` and value `ul` on the draw function `circle`. -/
theorem SetParameter_origin_literals_witness :
    ("o" = "origin" ∨ "o" = "o") ∧
      SetParameter Tokenize strtodZero "o" "ul" Function.sampleCircle [Layer.sample] =
        some ({ Function.sampleCircle with
                translateOrigin := true, translateOriginH := 0, translateOriginV := 0 },
              [Layer.sample]) :=
  ⟨Or.inr rfl,
    (SetParameter_origin_literals Tokenize strtodZero "o" Function.sampleCircle [Layer.sample]
      (Or.inr rfl)).2.2.1 "ul" (Or.inr rfl)⟩

/-- C8: with key `origin` or `o`, a value that is none of the recognised literals
and that the tokenizer does not split at `,` into exactly two tokens changes
nothing: the function and the layer store come back as they were. -/
theorem SetParameter_origin_unparsed (Tokenize : String → String → List String)
    (strtod : String → AIReal) (key value : String) (f : DrawFunction) (store : List Layer)
    (hkey : key = "origin" ∨ key = "o") (hlit : notOriginLiteral value)
    (htok : (Tokenize value ",").length ≠ 2) :
    SetParameter Tokenize strtod key value f store = some (f, store) := by
  obtain ⟨h1, h2, h3, h4, h5, h6, h7, h8, h9, h10, h11, h12⟩ := hlit
  rw [SetParameter_origin_key hkey]
  simp [SetParameter.origin, h1, h2, h3, h4, h5, h6, h7, h8, h9, h10, h11, h12, htok]

/-- C8, for the value `5`, which holds a single token. -/
theorem SetParameter_origin_unparsed_witness :
    notOriginLiteral "5" ∧ (Tokenize "5" ",").length ≠ 2 ∧
      SetParameter Tokenize strtodZero "origin" "5" Function.sampleCircle [Layer.sample] =
        some (Function.sampleCircle, [Layer.sample]) :=
  ⟨by decide, by decide,
    SetParameter_origin_unparsed Tokenize strtodZero "origin" "5" Function.sampleCircle
      [Layer.sample] (Or.inl rfl) (by decide) (by decide)⟩

/-- C9: `SetParameter` acts per key.  A call with key `origin`/`o` changes at most
`translateOrigin`, `translateOriginH`, `translateOriginV`; one with key
`rasterize`/`rast` at most `rasterizeFileName`; one with key `crop`/`c` at most
the function's crop flag and the crop flag of its first layer (and nothing at all
for a value other than `yes`, `y`, `no`, `n`); one with any other key changes
nothing and completes. -/
theorem SetParameter_frame (Tokenize : String → String → List String)
    (strtod : String → AIReal) (key value : String) (f : DrawFunction) (store : List Layer) :
    (key = "origin" ∨ key = "o" →
      ∃ t h v, SetParameter Tokenize strtod key value f store =
        some ({ f with translateOrigin := t, translateOriginH := h, translateOriginV := v },
          store)) ∧
    (key = "rasterize" ∨ key = "rast" →
      ∃ r, SetParameter Tokenize strtod key value f store =
        some ({ f with rasterizeFileName := r }, store)) ∧
    (key = "crop" ∨ key = "c" →
      (∀ p rest l, f.layers = p :: rest → store[p]? = some l →
        ∃ b b2, SetParameter Tokenize strtod key value f store =
          some ({ f with crop := b }, store.set p { l with crop := b2 })) ∧
      (value ≠ "yes" → value ≠ "y" → value ≠ "no" → value ≠ "n" →
        SetParameter Tokenize strtod key value f store = some (f, store))) ∧
    (key ≠ "origin" → key ≠ "o" → key ≠ "rasterize" → key ≠ "rast" → key ≠ "crop" →
      key ≠ "c" → SetParameter Tokenize strtod key value f store = some (f, store)) := by
  refine ⟨fun hkey => ?_, fun hkey => ?_, fun hkey => ⟨fun p rest l hp hl => ?_, ?_⟩, ?_⟩
  · rw [SetParameter_origin_key hkey]
    unfold SetParameter.origin
    dsimp only
    split_ifs
    · exact ⟨false, f.translateOriginH, f.translateOriginV, rfl⟩
    · exact ⟨true, 0.5, 0.5, rfl⟩
    · exact ⟨true, 0, 0, rfl⟩
    · exact ⟨true, 1, 0, rfl⟩
    · exact ⟨true, 1, 1, rfl⟩
    · exact ⟨true, 0, 1, rfl⟩
    · exact ⟨true, _, _, rfl⟩
    · exact ⟨f.translateOrigin, f.translateOriginH, f.translateOriginV, rfl⟩
  · rw [SetParameter_rasterize_key hkey]
    unfold SetParameter.rasterize
    split_ifs
    · exact ⟨"", rfl⟩
    · exact ⟨_, rfl⟩
    · exact ⟨f.rasterizeFileName, rfl⟩
  · rw [SetParameter_crop_key hkey]
    unfold SetParameter.crop
    split_ifs
    · exact ⟨true, true, by simp [setFirstLayerCrop, hp, hl]⟩
    · exact ⟨false, false, by simp [setFirstLayerCrop, hp, hl]⟩
    · refine ⟨f.crop, l.crop, ?_⟩
      have : store.set p l = store := set_of_getElem? store p l hl
      simp [this]
  · intro h1 h2 h3 h4
    rw [SetParameter_crop_key hkey]
    simp [SetParameter.crop, h1, h2, h3, h4]
  · intro h1 h2 h3 h4 h5 h6
    exact SetParameter_other_key h1 h2 h3 h4 h5 h6 value f store

/-- C9, for the key `crop` and the value `yes` on the draw function `circle`, and
for the unknown key `type`. -/
theorem SetParameter_frame_witness :
    (∃ b b2, SetParameter Tokenize strtodZero "crop" "yes" Function.sampleCircle [Layer.sample] =
      some ({ Function.sampleCircle with crop := b },
        [Layer.sample].set 0 { Layer.sample with crop := b2 })) ∧
    SetParameter Tokenize strtodZero "type" "yes" Function.sampleCircle [Layer.sample] =
      some (Function.sampleCircle, [Layer.sample]) :=
  ⟨((SetParameter_frame Tokenize strtodZero "crop" "yes" Function.sampleCircle
      [Layer.sample]).2.2.1 (Or.inl rfl)).1 0 [] Layer.sample rfl rfl,
    (SetParameter_frame Tokenize strtodZero "type" "yes" Function.sampleCircle
      [Layer.sample]).2.2.2 (by decide) (by decide) (by decide) (by decide) (by decide)
      (by decide)⟩

/-- C10: with key `rasterize` (or `rast`), `SetParameter` completes for every
function and every value; the values `no` and `n` set `rasterizeFileName` to the
empty string; every other non-empty value leaves it non-empty and ending in
`.png`. -/
theorem SetParameter_rasterize_png (Tokenize : String → String → List String)
    (strtod : String → AIReal) (key value : String) (f : DrawFunction) (store : List Layer)
    (hkey : key = "rasterize" ∨ key = "rast") :
    (∃ r, SetParameter Tokenize strtod key value f store = some r) ∧
    (value = "no" ∨ value = "n" →
      SetParameter Tokenize strtod key value f store =
        some ({ f with rasterizeFileName := "" }, store)) ∧
    (value ≠ "no" → value ≠ "n" → value ≠ "" →
      ∃ stem, SetParameter Tokenize strtod key value f store =
          some ({ f with rasterizeFileName := stem ++ ".png" }, store) ∧
        stem ++ ".png" ≠ "") := by
  rw [SetParameter_rasterize_key hkey]
  refine ⟨⟨_, rfl⟩, fun h => ?_, fun h1 h2 h3 => ?_⟩
  · simp [SetParameter.rasterize, h]
  · refine ⟨_, by simp only [SetParameter.rasterize, h1, h2, h3, or_self, if_false,
      ne_eq, not_false_eq_true, if_true]; rfl, ?_⟩
    intro h
    have := congrArg String.length h
    simp only [String.length_append] at this
    have h4 : (".png" : String).length = 4 := by decide
    rw [h4] at this
    simp at this

/-- C10, for the value `circle.png` on the draw function `circle`. -/
theorem SetParameter_rasterize_png_witness :
    ("rasterize" = "rasterize" ∨ "rasterize" = "rast") ∧
      ∃ stem, SetParameter Tokenize strtodZero "rasterize" "circle.png" Function.sampleCircle
          [Layer.sample] =
          some ({ Function.sampleCircle with rasterizeFileName := stem ++ ".png" },
            [Layer.sample]) ∧
        stem ++ ".png" ≠ "" :=
  ⟨Or.inl rfl,
    (SetParameter_rasterize_png Tokenize strtodZero "rasterize" "circle.png"
      Function.sampleCircle [Layer.sample] (Or.inl rfl)).2.2 (by decide) (by decide)
      (by decide)⟩

/-! ## Lemmas on `find_last_of` -/

theorem find_last_of_chars_none {ch : Char} :
    ∀ {l : List Char}, ch ∉ l → find_last_of_chars ch l = none
  | [], _ => rfl
  | x :: xs, h => by
    have hx : x ≠ ch := fun e => h (by simp [e])
    have hxs : ch ∉ xs := fun e => h (by simp [e])
    simp [find_last_of_chars, find_last_of_chars_none hxs, hx]

theorem find_last_of_chars_append {ch : Char} {rest : List Char} (hrest : ch ∉ rest) :
    ∀ (pre : List Char), find_last_of_chars ch (pre ++ ch :: rest) = some pre.length
  | [] => by simp [find_last_of_chars, find_last_of_chars_none hrest]
  | x :: xs => by
    simp [find_last_of_chars, find_last_of_chars_append hrest xs]

theorem find_last_of_chars_of_last {ch : Char} {l : List Char} {i : Nat}
    (hi : l[i]? = some ch) (hlast : ∀ k, i < k → l[k]? ≠ some ch) :
    find_last_of_chars ch l = some i := by
  obtain ⟨hlt, hget⟩ := List.getElem?_eq_some_iff.mp hi
  have hsplit : l = l.take i ++ ch :: l.drop (i + 1) := by
    rw [← hget, List.getElem_cons_drop l i hlt, List.take_append_drop]
  have hrest : ch ∉ l.drop (i + 1) := by
    intro hmem
    obtain ⟨m, hm⟩ := List.getElem?_of_mem hmem
    rw [List.getElem?_drop] at hm
    exact hlast (i + 1 + m) (by omega) hm
  have := find_last_of_chars_append hrest (l.take i)
  rw [← hsplit] at this
  rw [this, List.length_take]
  congr 1
  omega

/-! ## Further claims on `DrawFunction::SetParameter` -/

/-- C11 (claim as stated, at the values `no` and the empty string): neither value
contains a `.`; `SetParameter "rasterize" "no"` stores the empty string, not
`no.png`, and `SetParameter "rasterize" ""` leaves the function as it was instead
of storing `.png`. -/
theorem SetParameter_rasterize_no_not_png :
    '.' ∉ ("no" : String).data ∧
      (SetParameter Tokenize strtodZero "rasterize" "no" Function.sampleCircle
        [Layer.sample]).map (fun r => r.1.rasterizeFileName) = some "" ∧
      ("" : String) ≠ "no" ++ ".png" ∧
      '.' ∉ ("" : String).data ∧
      SetParameter Tokenize strtodZero "rasterize" "" Function.sampleCircle [Layer.sample] =
        some (Function.sampleCircle, [Layer.sample]) ∧
      Function.sampleCircle.rasterizeFileName ≠ "" ++ ".png" := by
  decide

/-- C11 (amended): with key `rasterize` or `rast`, when the last `.` of the value
is at position `i` and `i` does not exceed the length of the function's name,
`rasterizeFileName` becomes the first `i` characters of the function's own name
followed by `.png`; when the value contains no `.` and is none of `no`, `n` and
the empty string, it becomes the value followed by `.png`. -/
theorem SetParameter_rasterize_stem (Tokenize : String → String → List String)
    (strtod : String → AIReal) (key value : String) (f : DrawFunction) (store : List Layer)
    (hkey : key = "rasterize" ∨ key = "rast") :
    (∀ i, value.data[i]? = some '.' → (∀ k, i < k → value.data[k]? ≠ some '.') →
      i ≤ f.name.length →
      (String.mk (f.name.data.take i)).length = i ∧
      SetParameter Tokenize strtod key value f store =
        some ({ f with rasterizeFileName := String.mk (f.name.data.take i) ++ ".png" },
          store)) ∧
    ('.' ∉ value.data → value ≠ "no" → value ≠ "n" → value ≠ "" →
      SetParameter Tokenize strtod key value f store =
        some ({ f with rasterizeFileName := value ++ ".png" }, store)) := by
  rw [SetParameter_rasterize_key hkey]
  constructor
  · intro i hi hlast hlen
    have hmem : '.' ∈ value.data := List.getElem?_mem hi
    have h1 : value ≠ "no" := by rintro rfl; exact absurd hmem (by decide)
    have h2 : value ≠ "n" := by rintro rfl; exact absurd hmem (by decide)
    have h3 : value ≠ "" := by rintro rfl; exact absurd hmem (by decide)
    have hfind : find_last_of value '.' = some i := find_last_of_chars_of_last hi hlast
    refine ⟨?_, ?_⟩
    · show (f.name.data.take i).length = i
      rw [List.length_take]
      exact Nat.min_eq_left hlen
    · simp [SetParameter.rasterize, h1, h2, h3, hfind, substr0]
  · intro hno h1 h2 h3
    have hfind : find_last_of value '.' = none := find_last_of_chars_none hno
    simp [SetParameter.rasterize, h1, h2, h3, hfind]

/-- C11 (amended), for the function `circle` and the value `circle.png`: the file
name is `circle.png`. -/
theorem SetParameter_rasterize_stem_witness :
    SetParameter Tokenize strtodZero "rasterize" "circle.png" Function.sampleCircle
        [Layer.sample] =
      some ({ Function.sampleCircle with rasterizeFileName := "circle.png" }, [Layer.sample]) :=
  ((SetParameter_rasterize_stem Tokenize strtodZero "rasterize" "circle.png"
    Function.sampleCircle [Layer.sample] (Or.inl rfl)).1 6 (by decide)
    (fun k hk => by
      match k, hk with
      | 7, _ => decide
      | 8, _ => decide
      | 9, _ => decide
      | k + 10, _ => simp)
    (by decide)).2

/-- C12: for a draw function whose first layer is layer `p` of the store,
`SetParameter` with key `crop` or `c` and value `yes` or `y` sets the function's
crop flag, sets the crop flag of layer `p`, and leaves every other layer as it
was. -/
theorem SetParameter_crop_yes (Tokenize : String → String → List String)
    (strtod : String → AIReal) (key value : String) (f : DrawFunction) (store : List Layer)
    (p : Nat) (rest : List Nat) (l : Layer)
    (hkey : key = "crop" ∨ key = "c") (hval : value = "yes" ∨ value = "y")
    (hp : f.layers = p :: rest) (hl : store[p]? = some l) :
    ∃ store2, SetParameter Tokenize strtod key value f store =
        some ({ f with crop := true }, store2) ∧
      store2[p]? = some { l with crop := true } ∧
      (∀ q, q ≠ p → store2[q]? = store[q]?) ∧
      store2.length = store.length := by
  obtain ⟨hlt, _⟩ := List.getElem?_eq_some_iff.mp hl
  refine ⟨store.set p { l with crop := true }, ?_, ?_, ?_, ?_⟩
  · rw [SetParameter_crop_key hkey]
    simp [SetParameter.crop, hval, setFirstLayerCrop, hp, hl]
  · simp [List.getElem?_set, hlt]
  · intro q hq
    simp [List.getElem?_set, Ne.symm hq]
  · simp

/-- C12, for the function `circle`, whose only layer is layer 0 of the store. -/
theorem SetParameter_crop_yes_witness :
    ∃ store2, SetParameter Tokenize strtodZero "crop" "yes" Function.sampleCircle
        [Layer.sample] = some ({ Function.sampleCircle with crop := true }, store2) ∧
      store2[0]? = some { Layer.sample with crop := true } ∧
      (∀ q, q ≠ 0 → store2[q]? = [Layer.sample][q]?) ∧
      store2.length = [Layer.sample].length :=
  SetParameter_crop_yes Tokenize strtodZero "crop" "yes" Function.sampleCircle [Layer.sample]
    0 [] Layer.sample (Or.inl rfl) (Or.inl rfl) rfl rfl

/-! ## Claims on `ParseLayerName` -/

theorem layerName_chars (P O : List Char) (hO : '(' ∉ O) :
    (P ++ '(' :: (O ++ [')', ';'])).length = P.length + O.length + 3 ∧
    (P ++ '(' :: (O ++ [')', ';'])).drop (P.length + O.length + 3 - 2) = [')', ';'] ∧
    find_last_of_chars '(' (P ++ '(' :: (O ++ [')', ';'])) = some P.length ∧
    (P ++ '(' :: (O ++ [')', ';'])).take P.length = P ∧
    ((P ++ '(' :: (O ++ [')', ';'])).drop (P.length + 1)).take
      (P.length + O.length + 3 - P.length - 3) = O := by
  refine ⟨?_, ?_, ?_, ?_, ?_⟩
  · simp only [List.length_append, List.length_cons, List.length_nil]; omega
  · have h1 : P ++ '(' :: (O ++ [')', ';']) = (P ++ '(' :: O) ++ [')', ';'] := by simp
    have h2 : P.length + O.length + 3 - 2 = (P ++ '(' :: O).length := by
      simp only [List.length_append, List.length_cons]; omega
    rw [h1, h2, List.drop_left]
  · apply find_last_of_chars_append
    intro h
    rcases List.mem_append.mp h with h | h
    · exact hO h
    · exact absurd h (by decide)
  · exact List.take_left _ _
  · have h1 : P ++ '(' :: (O ++ [')', ';']) = (P ++ ['(']) ++ (O ++ [')', ';']) := by simp
    have h2 : P.length + 1 = (P ++ ['(']).length := by simp
    have h3 : P.length + O.length + 3 - P.length - 3 = O.length := by omega
    rw [h1, h2, List.drop_left, h3, List.take_left]

theorem layerName_data (p o : String) :
    (p ++ "(" ++ o ++ ");").data = p.data ++ '(' :: (o.data ++ [')', ';']) := by
  simp [String.data_append]

theorem string_length_pos_of_ne {s : String} (h : s ≠ "") : 0 < s.data.length := by
  rcases hs : s.data with _ | ⟨x, xs⟩
  · exact absurd (String.ext hs) h
  · simp

/-- C13 (claim as stated, at the layer name `();`): the name has the form
`p + "(" + o + ");"` with `p` and `o` empty, yet the HTML path does not sanitise
`p` but assigns the default name `draw`, and the TypeScript path sanitises the
whole layer name `();`. -/
theorem ParseLayerName_three_chars :
    ("();" : String) = "" ++ "(" ++ "" ++ ");" ∧ '(' ∉ ("" : String).data ∧
      HtmlDocument.ParseLayerName cleanStringId "();" "" = ("draw", "") ∧
      TypescriptDocument.ParseLayerName cleanStringId "();" "" = ("();", "") ∧
      cleanStringId "" true = "" := by
  decide

/-- C13 (amended): for a layer name `p + "(" + o + ");"` where `o` contains no
`(` and `p`, `o` are not both empty (the name is longer than three characters),
both variants of `ParseLayerName` hand exactly `p` to the sanitiser for the
function name and yield exactly `o` as the option text. -/
theorem ParseLayerName_function_syntax (CleanString : String → Bool → String)
    (p o optionValue : String) (ho : '(' ∉ o.data) (hne : p ≠ "" ∨ o ≠ "") :
    HtmlDocument.ParseLayerName CleanString (p ++ "(" ++ o ++ ");") optionValue =
      (CleanString p true, o) ∧
    TypescriptDocument.ParseLayerName CleanString (p ++ "(" ++ o ++ ");") optionValue =
      (CleanString p true, o) := by
  obtain ⟨hlen, hdrop, hfind, htake, hopt⟩ := layerName_chars p.data o.data ho
  have hdata := layerName_data p o
  have hlength : (p ++ "(" ++ o ++ ");").length = p.data.length + o.data.length + 3 := by
    show (p ++ "(" ++ o ++ ");").data.length = _
    rw [hdata, hlen]
  have hpos : 0 < p.data.length + o.data.length := by
    rcases hne with h | h
    · have := string_length_pos_of_ne h; omega
    · have := string_length_pos_of_ne h; omega
  have h3 : 3 < (p ++ "(" ++ o ++ ");").length := by rw [hlength]; omega
  have hsuffix : substrFrom (p ++ "(" ++ o ++ ");") ((p ++ "(" ++ o ++ ");").length - 2)
      = ");" := by
    unfold substrFrom
    rw [hlength, hdata, hdrop]
  have hlast : find_last_of (p ++ "(" ++ o ++ ");") '(' = some p.data.length := by
    unfold find_last_of
    rw [hdata, hfind]
  have herase : erase (p ++ "(" ++ o ++ ");") p.data.length = p := by
    unfold erase
    rw [hdata, htake]
  have hsub : substr (p ++ "(" ++ o ++ ");") (p.data.length + 1)
      ((p ++ "(" ++ o ++ ");").length - p.data.length - 3) = o := by
    unfold substr
    rw [hlength, hdata, hopt]
  constructor
  · unfold HtmlDocument.ParseLayerName
    simp only [h3, if_true, hsuffix, hlast, herase, hsub]
  · unfold TypescriptDocument.ParseLayerName
    simp only [h3, if_true, hsuffix, hlast, herase, hsub]

/-- C13 (amended), at the layer name of the claim: the options are
`rasterize:circle.png;crop:yes` and the prefix is `Circle`. -/
theorem ParseLayerName_function_syntax_witness :
    HtmlDocument.ParseLayerName cleanStringId
        ("Circle" ++ "(" ++ "rasterize:circle.png;crop:yes" ++ ");") "" =
      ("Circle", "rasterize:circle.png;crop:yes") ∧
    TypescriptDocument.ParseLayerName cleanStringId
        ("Circle" ++ "(" ++ "rasterize:circle.png;crop:yes" ++ ");") "" =
      ("Circle", "rasterize:circle.png;crop:yes") :=
  ParseLayerName_function_syntax cleanStringId "Circle" "rasterize:circle.png;crop:yes" ""
    (by decide) (Or.inl (by decide))

/-- C14: in the HTML export path, a layer name that does not end with `);` or
that contains no `(` gets the function name `draw`, and the option text stays as
the caller initialised it, that is, empty. -/
theorem HtmlDocument_ParseLayerName_default (CleanString : String → Bool → String)
    (layerName : String)
    (h : ¬ ((");" : String).data <:+ layerName.data) ∨ '(' ∉ layerName.data) :
    HtmlDocument.ParseLayerName CleanString layerName "" = ("draw", "") ∧
      ∀ optionValue, HtmlDocument.ParseLayerName CleanString layerName optionValue =
        ("draw", optionValue) := by
  have key : ∀ optionValue, HtmlDocument.ParseLayerName CleanString layerName optionValue =
      ("draw", optionValue) := by
    intro optionValue
    unfold HtmlDocument.ParseLayerName
    simp only
    split_ifs with h3 hs
    · have hsuf : (");" : String).data <:+ layerName.data := by
        have := congrArg String.data hs
        unfold substrFrom at this
        simp only at this
        have hd : (");" : String).data = [')', ';'] := rfl
        rw [hd, ← this]
        exact List.drop_suffix _ _
      have hno : '(' ∉ layerName.data := by
        rcases h with h | h
        · exact absurd hsuf h
        · exact h
      have hfind : find_last_of layerName '(' = none := find_last_of_chars_none hno
      rw [hfind]
    · rfl
    · rfl
  exact ⟨key "", key⟩

/-- C14, for the layer name `Layer 1`. -/
theorem HtmlDocument_ParseLayerName_default_witness :
    HtmlDocument.ParseLayerName cleanStringId "Layer 1" "" = ("draw", "") :=
  (HtmlDocument_ParseLayerName_default cleanStringId "Layer 1" (Or.inr (by decide))).1

/-! ## Claims on `SetFunctionOptions` -/

theorem SetDocumentBoundsLoop_crop (UpdateBounds : AIRealRect → AIRealRect → AIRealRect)
    (l : Layer) (post : List Layer) (hl : l.crop = true) :
    ∀ (pre : List Layer) (b : AIRealRect), (∀ x ∈ pre, x.crop = false) →
      SetDocumentBoundsLoop UpdateBounds (pre ++ l :: post) b = l.bounds
  | [], b, _ => by simp [SetDocumentBoundsLoop, hl]
  | x :: pre, b, h => by
    have hx : x.crop = false := h x (by simp)
    simp only [List.cons_append, SetDocumentBoundsLoop, hx, Bool.false_eq_true, if_false]
    exact SetDocumentBoundsLoop_crop UpdateBounds l post hl pre _
      (fun y hy => h y (by simp [hy]))

theorem exists_first_crop : ∀ (layers : List Layer), (∃ l ∈ layers, l.crop = true) →
    ∃ pre l post, layers = pre ++ l :: post ∧ (∀ x ∈ pre, x.crop = false) ∧ l.crop = true
  | [], h => by simp at h
  | x :: xs, h => by
    by_cases hx : x.crop = true
    · exact ⟨[], x, xs, rfl, by simp, hx⟩
    · have hxs : ∃ l ∈ xs, l.crop = true := by
        obtain ⟨l, hl, hc⟩ := h
        rcases List.mem_cons.mp hl with rfl | hl
        · exact absurd hc hx
        · exact ⟨l, hl, hc⟩
      obtain ⟨pre, l, post, he, hpre, hl⟩ := exists_first_crop xs hxs
      refine ⟨x :: pre, l, post, by simp [he], ?_, hl⟩
      intro y hy
      rcases List.mem_cons.mp hy with rfl | hy
      · simpa using hx
      · exact hpre y hy

/-- C16: when `l` is the first layer in scan order with `crop` set,
`SetDocumentBounds` makes `documentBounds` exactly the bounds of `l` and sizes the
canvas from them, whatever the bounds of the layers before and after it; and
every list holding a layer with `crop` set has such a first layer. -/
theorem SetDocumentBounds_crop (UpdateBounds : AIRealRect → AIRealRect → AIRealRect)
    (layers : List Layer) :
    (∀ pre l post, layers = pre ++ l :: post → (∀ x ∈ pre, x.crop = false) →
      l.crop = true →
      SetDocumentBounds UpdateBounds layers =
        { documentBounds := l.bounds
          width := l.bounds.right - l.bounds.left
          height := l.bounds.top - l.bounds.bottom }) ∧
    ((∃ l ∈ layers, l.crop = true) →
      ∃ pre l post, layers = pre ++ l :: post ∧ (∀ x ∈ pre, x.crop = false) ∧
        l.crop = true) := by
  refine ⟨?_, exists_first_crop layers⟩
  intro pre l post he hpre hl
  unfold SetDocumentBounds
  rw [he, SetDocumentBoundsLoop_crop UpdateBounds l post hl pre _ hpre]

/-- C16, for a layer with crop and bounds `{0, 10, 10, 0}` between two larger
layers: the document bounds are exactly `{0, 10, 10, 0}`. -/
theorem SetDocumentBounds_crop_witness :
    SetDocumentBounds UpdateBounds
        [Layer.sampleWith wideBounds false, Layer.sampleWith squareBounds true,
          Layer.sampleWith wideBounds false] =
      { documentBounds := squareBounds
        width := squareBounds.right - squareBounds.left
        height := squareBounds.top - squareBounds.bottom } :=
  (SetDocumentBounds_crop UpdateBounds
      [Layer.sampleWith wideBounds false, Layer.sampleWith squareBounds true,
        Layer.sampleWith wideBounds false]).1
    [Layer.sampleWith wideBounds false] (Layer.sampleWith squareBounds true)
    [Layer.sampleWith wideBounds false] rfl (by simp [Layer.sampleWith]) rfl

theorem SetDocumentBoundsLoop_min (g : AIRealRect → AIReal) (f : Layer → AIReal)
    (hg : ∀ (l : Layer) (b : AIRealRect), g (UpdateBounds l.bounds b) = min (g b) (f l)) :
    ∀ (layers : List Layer) (b : AIRealRect), (∀ l ∈ layers, l.crop = false) →
      g (SetDocumentBoundsLoop UpdateBounds layers b) ≤ g b ∧
      (∀ l ∈ layers, g (SetDocumentBoundsLoop UpdateBounds layers b) ≤ f l) ∧
      (g (SetDocumentBoundsLoop UpdateBounds layers b) = g b ∨
        ∃ l ∈ layers, g (SetDocumentBoundsLoop UpdateBounds layers b) = f l)
  | [], b, _ => by simp [SetDocumentBoundsLoop]
  | x :: xs, b, h => by
    have hx : x.crop = false := h x (by simp)
    obtain ⟨h1, h2, h3⟩ := SetDocumentBoundsLoop_min g f hg xs (UpdateBounds x.bounds b)
      (fun y hy => h y (by simp [hy]))
    simp only [SetDocumentBoundsLoop, hx, Bool.false_eq_true, if_false]
    rw [hg] at h1 h3
    refine ⟨le_trans h1 (min_le_left _ _), ?_, ?_⟩
    · intro l hl
      rcases List.mem_cons.mp hl with rfl | hl
      · exact le_trans h1 (min_le_right _ _)
      · exact h2 l hl
    · rcases h3 with h3 | ⟨l, hl, h3⟩
      · rcases min_choice (g b) (f x) with hc | hc
        · left; rw [h3, hc]
        · right; exact ⟨x, by simp, by rw [h3, hc]⟩
      · right; exact ⟨l, by simp [hl], h3⟩

theorem SetDocumentBoundsLoop_max (g : AIRealRect → AIReal) (f : Layer → AIReal)
    (hg : ∀ (l : Layer) (b : AIRealRect), g (UpdateBounds l.bounds b) = max (g b) (f l)) :
    ∀ (layers : List Layer) (b : AIRealRect), (∀ l ∈ layers, l.crop = false) →
      g b ≤ g (SetDocumentBoundsLoop UpdateBounds layers b) ∧
      (∀ l ∈ layers, f l ≤ g (SetDocumentBoundsLoop UpdateBounds layers b)) ∧
      (g (SetDocumentBoundsLoop UpdateBounds layers b) = g b ∨
        ∃ l ∈ layers, g (SetDocumentBoundsLoop UpdateBounds layers b) = f l)
  | [], b, _ => by simp [SetDocumentBoundsLoop]
  | x :: xs, b, h => by
    have hx : x.crop = false := h x (by simp)
    obtain ⟨h1, h2, h3⟩ := SetDocumentBoundsLoop_max g f hg xs (UpdateBounds x.bounds b)
      (fun y hy => h y (by simp [hy]))
    simp only [SetDocumentBoundsLoop, hx, Bool.false_eq_true, if_false]
    rw [hg] at h1 h3
    refine ⟨le_trans (le_max_left _ _) h1, ?_, ?_⟩
    · intro l hl
      rcases List.mem_cons.mp hl with rfl | hl
      · exact le_trans (le_max_right _ _) h1
      · exact h2 l hl
    · rcases h3 with h3 | ⟨l, hl, h3⟩
      · rcases max_choice (g b) (f x) with hc | hc
        · left; rw [h3, hc]
        · right; exact ⟨x, by simp, by rw [h3, hc]⟩
      · right; exact ⟨l, by simp [hl], h3⟩

/-- C17: for a non-empty list of layers without crop whose coordinates are finite
floats, `SetDocumentBounds` yields the least `left`, the greatest `right`, the
greatest `top` and the least `bottom` of the layers, each attained by a layer,
and sets the canvas width to `right - left` and the height to `top - bottom`. -/
theorem SetDocumentBounds_union (layers : List Layer) (hne : layers ≠ [])
    (hcrop : ∀ l ∈ layers, l.crop = false) (hfin : ∀ l ∈ layers, l.bounds.finite) :
    ((∀ l ∈ layers, (SetDocumentBounds UpdateBounds layers).documentBounds.left
        ≤ l.bounds.left) ∧
      ∃ l ∈ layers, (SetDocumentBounds UpdateBounds layers).documentBounds.left
        = l.bounds.left) ∧
    ((∀ l ∈ layers, l.bounds.right
        ≤ (SetDocumentBounds UpdateBounds layers).documentBounds.right) ∧
      ∃ l ∈ layers, (SetDocumentBounds UpdateBounds layers).documentBounds.right
        = l.bounds.right) ∧
    ((∀ l ∈ layers, l.bounds.top
        ≤ (SetDocumentBounds UpdateBounds layers).documentBounds.top) ∧
      ∃ l ∈ layers, (SetDocumentBounds UpdateBounds layers).documentBounds.top
        = l.bounds.top) ∧
    ((∀ l ∈ layers, (SetDocumentBounds UpdateBounds layers).documentBounds.bottom
        ≤ l.bounds.bottom) ∧
      ∃ l ∈ layers, (SetDocumentBounds UpdateBounds layers).documentBounds.bottom
        = l.bounds.bottom) ∧
    (SetDocumentBounds UpdateBounds layers).width =
      (SetDocumentBounds UpdateBounds layers).documentBounds.right -
        (SetDocumentBounds UpdateBounds layers).documentBounds.left ∧
    (SetDocumentBounds UpdateBounds layers).height =
      (SetDocumentBounds UpdateBounds layers).documentBounds.top -
        (SetDocumentBounds UpdateBounds layers).documentBounds.bottom := by
  obtain ⟨l0, hl0⟩ := List.exists_mem_of_ne_nil layers hne
  obtain ⟨⟨_, hleft⟩, ⟨hright, _⟩, ⟨htop, _⟩, ⟨_, hbottom⟩⟩ := hfin l0 hl0
  obtain ⟨_, a2, a3⟩ := SetDocumentBoundsLoop_min (fun b => b.left) (fun l => l.bounds.left)
    (fun _ _ => rfl) layers sentinelBounds hcrop
  obtain ⟨_, b2, b3⟩ := SetDocumentBoundsLoop_max (fun b => b.right) (fun l => l.bounds.right)
    (fun _ _ => rfl) layers sentinelBounds hcrop
  obtain ⟨_, c2, c3⟩ := SetDocumentBoundsLoop_max (fun b => b.top) (fun l => l.bounds.top)
    (fun _ _ => rfl) layers sentinelBounds hcrop
  obtain ⟨_, d2, d3⟩ := SetDocumentBoundsLoop_min (fun b => b.bottom)
    (fun l => l.bounds.bottom) (fun _ _ => rfl) layers sentinelBounds hcrop
  refine ⟨⟨a2, ?_⟩, ⟨b2, ?_⟩, ⟨c2, ?_⟩, ⟨d2, ?_⟩, rfl, rfl⟩
  · rcases a3 with h | h
    · exact ⟨l0, hl0, le_antisymm (a2 l0 hl0) (by
        show l0.bounds.left ≤ (SetDocumentBoundsLoop UpdateBounds layers sentinelBounds).left
        rw [h]; exact hleft)⟩
    · exact h
  · rcases b3 with h | h
    · exact ⟨l0, hl0, le_antisymm (by
        show (SetDocumentBoundsLoop UpdateBounds layers sentinelBounds).right ≤ l0.bounds.right
        rw [h]; exact hright) (b2 l0 hl0)⟩
    · exact h
  · rcases c3 with h | h
    · exact ⟨l0, hl0, le_antisymm (by
        show (SetDocumentBoundsLoop UpdateBounds layers sentinelBounds).top ≤ l0.bounds.top
        rw [h]; exact htop) (c2 l0 hl0)⟩
    · exact h
  · rcases d3 with h | h
    · exact ⟨l0, hl0, le_antisymm (d2 l0 hl0) (by
        show l0.bounds.bottom ≤
          (SetDocumentBoundsLoop UpdateBounds layers sentinelBounds).bottom
        rw [h]; exact hbottom)⟩
    · exact h

theorem sampleLayers_finite : ∀ l ∈ sampleLayers, l.bounds.finite := by
  intro l hl
  simp only [sampleLayers, List.mem_cons, List.mem_singleton, List.not_mem_nil, or_false] at hl
  rcases hl with rfl | rfl <;>
    simp [AIRealRect.finite, Layer.sampleWith, wideBounds, squareBounds, FLT_MAX] <;>
    norm_num

/-- C17, for two layers with bounds `wideBounds` and `squareBounds`: the left edge
of the document bounds is the least left edge, and the canvas is 35 wide and 27
high. -/
theorem SetDocumentBounds_union_witness :
    (∀ l ∈ sampleLayers, l.bounds.finite) ∧
    ((∀ l ∈ sampleLayers, (SetDocumentBounds UpdateBounds sampleLayers).documentBounds.left
        ≤ l.bounds.left) ∧
      ∃ l ∈ sampleLayers, (SetDocumentBounds UpdateBounds sampleLayers).documentBounds.left
        = l.bounds.left) ∧
    SetDocumentBounds UpdateBounds sampleLayers =
      { documentBounds := wideBounds, width := 35, height := 27 } :=
  ⟨sampleLayers_finite,
    (SetDocumentBounds_union sampleLayers (by decide) (by decide) sampleLayers_finite).1,
    by
      simp [SetDocumentBounds, SetDocumentBoundsLoop, sampleLayers, Layer.sampleWith,
        UpdateBounds, sentinelBounds, wideBounds, squareBounds, FLT_MAX]
      norm_num⟩

/-- C18 (claim as stated, on a document without visible layers): no error is
raised; `SetDocumentBounds` returns the inverted sentinel rectangle as document
bounds, with a negative canvas width and height. -/
theorem SetDocumentBounds_no_layers_negative :
    (SetDocumentBounds UpdateBounds []).documentBounds = sentinelBounds ∧
      (SetDocumentBounds UpdateBounds []).width < 0 ∧
      (SetDocumentBounds UpdateBounds []).height < 0 := by
  refine ⟨rfl, ?_, ?_⟩ <;>
    simp [SetDocumentBounds, SetDocumentBoundsLoop, sentinelBounds, FLT_MAX]

/-- C18 (amended): on a document without visible layers `SetDocumentBounds`
completes; the document bounds are the sentinel rectangle
(`FLT_MAX`, `-FLT_MAX`, `-FLT_MAX`, `FLT_MAX`) and the canvas width and height
are both `-FLT_MAX - FLT_MAX`, a negative number. -/
theorem SetDocumentBounds_no_layers (UpdateBounds : AIRealRect → AIRealRect → AIRealRect) :
    SetDocumentBounds UpdateBounds [] =
      { documentBounds := sentinelBounds
        width := -FLT_MAX - FLT_MAX
        height := -FLT_MAX - FLT_MAX } ∧
    -FLT_MAX - FLT_MAX < 0 := by
  refine ⟨rfl, ?_⟩
  unfold FLT_MAX
  norm_num

/-! ## Claims on `DrawFunction::Reposition` -/

/-- C19: the translation that `Reposition` hands to the output stream is
`x = (b.left - d.left) + (b.right - b.left) * H` and
`y = -(b.top - d.top) + (b.top - b.bottom) * V`, for the function bounds `b`, the
document bounds `d` and the origin fractions `H`, `V`. -/
theorem Reposition_formula (f : DrawFunction) (d : AIRealRect) :
    Reposition f d =
      ((f.bounds.left - d.left) + (f.bounds.right - f.bounds.left) * f.translateOriginH,
        -(f.bounds.top - d.top) + (f.bounds.top - f.bounds.bottom) * f.translateOriginV) := by
  unfold Reposition
  simp only [Prod.mk.injEq, true_and]
  ring

/-- C20 (claim as stated, on the function with bounds `{0, 10, 10, 0}` and origin
`center` in a document with the same bounds): `Reposition` computes `(5, 5)`, not
`(0, 0)`. -/
theorem Reposition_center_not_zero :
    Function.sampleCentered.translateOriginH = 0.5 ∧
      Function.sampleCentered.translateOriginV = 0.5 ∧
      Function.sampleCentered.bounds = squareBounds ∧
      Reposition Function.sampleCentered squareBounds = (5, 5) ∧
      Reposition Function.sampleCentered squareBounds ≠ (0, 0) := by
  refine ⟨rfl, rfl, rfl, ?_, ?_⟩ <;>
    simp [Reposition, Function.sampleCentered, squareBounds] <;> norm_num

/-- C20 (amended): for a draw function with origin `center` whose bounds equal the
document bounds, `Reposition` computes half the width and half the height of the
bounds; the translation is `(0, 0)` exactly when the bounds have no width and no
height. -/
theorem Reposition_center (f : DrawFunction) (d : AIRealRect)
    (hH : f.translateOriginH = 0.5) (hV : f.translateOriginV = 0.5) (hb : f.bounds = d) :
    Reposition f d = ((d.right - d.left) * 0.5, (d.top - d.bottom) * 0.5) ∧
      (Reposition f d = (0, 0) ↔ d.right = d.left ∧ d.top = d.bottom) := by
  have h : Reposition f d = ((d.right - d.left) * 0.5, (d.top - d.bottom) * 0.5) := by
    unfold Reposition
    rw [hH, hV, hb]
    simp only [Prod.mk.injEq]
    constructor <;> ring
  refine ⟨h, ?_⟩
  rw [h]
  simp only [Prod.mk.injEq]
  constructor
  · rintro ⟨h1, h2⟩
    constructor
    · have : d.right - d.left = 0 := by
        rcases mul_eq_zero.mp h1 with h | h
        · exact h
        · norm_num at h
      linarith
    · have : d.top - d.bottom = 0 := by
        rcases mul_eq_zero.mp h2 with h | h
        · exact h
        · norm_num at h
      linarith
  · rintro ⟨h1, h2⟩
    rw [h1, h2]
    simp

/-- C20 (amended), on the function with bounds `{0, 10, 10, 0}` and origin
`center`: the translation is `(10 * 0.5, 10 * 0.5)`. -/
theorem Reposition_center_witness :
    Reposition Function.sampleCentered squareBounds =
      ((squareBounds.right - squareBounds.left) * 0.5,
        (squareBounds.top - squareBounds.bottom) * 0.5) :=
  (Reposition_center Function.sampleCentered squareBounds rfl rfl rfl).1

/-! ## Claims on termination, monotonicity and cancellation -/

theorem CreateUniqueNameLoop_some {c : FunctionCollection} {s : String} :
    ∀ {fuel k0 : Nat} {r : String}, CreateUniqueNameLoop c s fuel k0 = some r →
      ∃ k, k0 < k ∧ k ≤ k0 + fuel ∧ r = s ++ decimal k ∧
        c.Find (s ++ decimal k) kAnyFunction = none ∧
        ∀ j, k0 < j → j < k → (c.Find (s ++ decimal j) kAnyFunction).isSome = true
  | 0, k0, r, h => by simp [CreateUniqueNameLoop] at h
  | fuel + 1, k0, r, h => by
    unfold CreateUniqueNameLoop at h
    simp only at h
    by_cases hs : (c.Find (s ++ decimal (k0 + 1)) kAnyFunction).isSome = true
    · rw [if_pos hs] at h
      obtain ⟨k, h1, h2, h3, h4, h5⟩ := CreateUniqueNameLoop_some h
      refine ⟨k, by omega, by omega, h3, h4, fun j hj1 hj2 => ?_⟩
      by_cases hj : j = k0 + 1
      · rw [hj]; exact hs
      · exact h5 j (by omega) hj2
    · rw [if_neg hs] at h
      refine ⟨k0 + 1, by omega, by omega, (Option.some.inj h).symm, ?_, fun j h1 h2 => by omega⟩
      cases hf : c.Find (s ++ decimal (k0 + 1)) kAnyFunction with
      | none => rfl
      | some v => simp [hf] at hs

/-- C27: for every collection and every base name the suffix search of
`CreateUniqueName` stops: there is a counter value `k` with `1 ≤ k` and `k` at
most the number of stored functions plus one at which `Find` misses, every
smaller counter value collides, and the loop returns the base name followed by
the decimal digits of `k`. -/
theorem CreateUniqueName_loop_stops (c : FunctionCollection) (base : String) :
    ∃ k, 1 ≤ k ∧ k ≤ c.functions.length + 1 ∧
      CreateUniqueNameLoop c base (c.functions.length + 1) 0 = some (base ++ decimal k) ∧
      c.Find (base ++ decimal k) kAnyFunction = none ∧
      ∀ j, 1 ≤ j → j < k → (c.Find (base ++ decimal j) kAnyFunction).isSome = true := by
  obtain ⟨r, hr⟩ := Option.isSome_iff_exists.mp (CreateUniqueNameLoop_isSome c base)
  obtain ⟨k, h1, h2, h3, h4, h5⟩ := CreateUniqueNameLoop_some hr
  refine ⟨k, h1, by omega, ?_, h4, fun j hj1 hj2 => h5 j hj1 hj2⟩
  rw [hr, h3]

theorem SetDocumentBoundsLoop_append (UpdateBounds : AIRealRect → AIRealRect → AIRealRect)
    (l : Layer) (hl : l.crop = false) :
    ∀ (layers : List Layer) (b : AIRealRect), (∀ x ∈ layers, x.crop = false) →
      SetDocumentBoundsLoop UpdateBounds (layers ++ [l]) b =
        UpdateBounds l.bounds (SetDocumentBoundsLoop UpdateBounds layers b)
  | [], b, _ => by simp [SetDocumentBoundsLoop, hl]
  | x :: xs, b, h => by
    have hx : x.crop = false := h x (by simp)
    simp only [List.cons_append, SetDocumentBoundsLoop, hx, Bool.false_eq_true, if_false]
    exact SetDocumentBoundsLoop_append UpdateBounds l hl xs _ (fun y hy => h y (by simp [hy]))

/-- C28: for layers without crop and a further layer `l` without crop, the
document bounds computed for the list extended by `l` contain those computed for
the list alone: `left` and `bottom` do not increase, `right` and `top` do not
decrease. -/
theorem SetDocumentBounds_monotone (layers : List Layer) (l : Layer)
    (hcrop : ∀ x ∈ layers, x.crop = false) (hl : l.crop = false) :
    (SetDocumentBounds UpdateBounds (layers ++ [l])).documentBounds.left
        ≤ (SetDocumentBounds UpdateBounds layers).documentBounds.left ∧
    (SetDocumentBounds UpdateBounds (layers ++ [l])).documentBounds.bottom
        ≤ (SetDocumentBounds UpdateBounds layers).documentBounds.bottom ∧
    (SetDocumentBounds UpdateBounds layers).documentBounds.right
        ≤ (SetDocumentBounds UpdateBounds (layers ++ [l])).documentBounds.right ∧
    (SetDocumentBounds UpdateBounds layers).documentBounds.top
        ≤ (SetDocumentBounds UpdateBounds (layers ++ [l])).documentBounds.top := by
  unfold SetDocumentBounds
  simp only [SetDocumentBoundsLoop_append UpdateBounds l hl layers sentinelBounds hcrop]
  exact ⟨min_le_left _ _, min_le_left _ _, le_max_left _ _, le_max_left _ _⟩

/-- C28, for the two sample layers extended by a layer with the wide bounds. -/
theorem SetDocumentBounds_monotone_witness :
    (SetDocumentBounds UpdateBounds (sampleLayers ++ [Layer.sampleWith wideBounds false])
        ).documentBounds.left ≤ (SetDocumentBounds UpdateBounds sampleLayers).documentBounds.left :=
  (SetDocumentBounds_monotone sampleLayers (Layer.sampleWith wideBounds false)
    (by decide) rfl).1

/-- C29: when `translateOrigin` is set, the translation that `RenderDrawFunction`
concatenates onto the internal transform is `(-x, -y)`, where `(x, y)` is the
translation that `Reposition` computes for the same bounds and origin fractions. -/
theorem RenderDrawFunction_cancels_Reposition (f : DrawFunction) (d : AIRealRect)
    (h : f.translateOrigin = true) :
    RenderDrawFunction.originTranslation f d =
      some (-(Reposition f d).1, -(Reposition f d).2) := by
  unfold RenderDrawFunction.originTranslation Reposition
  simp only [h, if_true, Option.some.injEq, Prod.mk.injEq]
  constructor <;> ring

/-- C29, for the function with bounds `{0, 10, 10, 0}` and origin `center`. -/
theorem RenderDrawFunction_cancels_Reposition_witness :
    Function.sampleCentered.translateOrigin = true ∧
      RenderDrawFunction.originTranslation Function.sampleCentered squareBounds =
        some (-(Reposition Function.sampleCentered squareBounds).1,
          -(Reposition Function.sampleCentered squareBounds).2) :=
  ⟨rfl, RenderDrawFunction_cancels_Reposition Function.sampleCentered squareBounds rfl⟩

/-! ## Lemmas on the artwork scan -/

theorem scanPaint_fst (paint : Bool) (kind : AIColorTag) (pattern : Nat) (layer : Layer)
    (p q : List Pattern) :
    (scanPaint paint kind pattern layer p).1 = (scanPaint paint kind pattern layer q).1 := by
  unfold scanPaint
  cases paint <;> cases kind <;> rfl

theorem scanStyle_fst (attr : ArtAttr) (layer : Layer) (p q : List Pattern) :
    (scanStyle attr layer p).1 = (scanStyle attr layer q).1 := by
  unfold scanStyle
  simp only
  rw [scanPaint_fst _ _ _ _ _ (scanPaint attr.style.fillPaint attr.style.fillKind
      attr.style.fillPattern (if attr.opacity ≠ 1 then { layer with hasAlpha := true }
        else layer) q).2,
    scanPaint_fst attr.style.fillPaint _ _ _ p q]

theorem ScanLayerArtwork_art (UpdateBounds : AIRealRect → AIRealRect → AIRealRect)
    (newLayer : Layer) (nullArt : ArtAttr) (attr : ArtAttr) (pa rc fc sib : Art) (depth : Nat)
    (layer : Layer) (patterns : List Pattern) :
    ScanLayerArtwork UpdateBounds newLayer nullArt (Art.art attr pa rc fc sib) depth layer
        patterns =
      ScanLayerArtwork.unlessNull UpdateBounds newLayer nullArt sib depth
        (ScanLayerArtwork.visit UpdateBounds newLayer nullArt attr pa rc fc depth layer
          patterns) := by
  cases sib <;> cases fc <;> rfl

theorem scanOwnArtwork_art (UpdateBounds : AIRealRect → AIRealRect → AIRealRect)
    (nullArt : ArtAttr) (attr : ArtAttr) (pa rc fc sib : Art) (layer : Layer) :
    scanOwnArtwork UpdateBounds nullArt (Art.art attr pa rc fc sib) layer =
      scanOwnArtwork.unlessNull UpdateBounds nullArt sib
        (scanOwnArtwork.visit UpdateBounds nullArt attr rc fc layer) := by
  cases sib <;> cases fc <;> rfl

/-- The layer accumulator after `ScanLayerArtwork` is the one computed from the
layer's own art alone. -/
theorem ScanLayerArtwork_fst (UpdateBounds : AIRealRect → AIRealRect → AIRealRect)
    (newLayer : Layer) (nullArt : ArtAttr) :
    ∀ (art : Art) (depth : Nat) (layer : Layer) (patterns : List Pattern),
      (ScanLayerArtwork UpdateBounds newLayer nullArt art depth layer patterns).1 =
        scanOwnArtwork UpdateBounds nullArt art layer := by
  intro art
  induction art with
  | null =>
    intro depth layer patterns
    simp only [ScanLayerArtwork, scanOwnArtwork]
    exact scanStyle_fst _ _ _ _
  | art attr pa rc fc sib _ ihrc ihfc ihsib =>
    intro depth layer patterns
    have hnext : ∀ (h : Art), (∀ (d : Nat) (l : Layer) (p : List Pattern),
          (ScanLayerArtwork UpdateBounds newLayer nullArt h d l p).1 =
            scanOwnArtwork UpdateBounds nullArt h l) →
        ∀ (d : Nat) (r : Layer × List Pattern) (l : Layer), r.1 = l →
          (ScanLayerArtwork.unlessNull UpdateBounds newLayer nullArt h d r).1 =
            scanOwnArtwork.unlessNull UpdateBounds nullArt h l := by
      intro h ih d r l hrl
      cases h with
      | null => exact hrl
      | art a2 p2 r2 f2 s2 =>
        simp only [ScanLayerArtwork.unlessNull, scanOwnArtwork.unlessNull]
        rw [ih, hrl]
    rw [ScanLayerArtwork_art, scanOwnArtwork_art]
    apply hnext sib ihsib
    unfold ScanLayerArtwork.visit scanOwnArtwork.visit
    by_cases hh : attr.hidden = true
    · simp only [hh, if_true]
    · simp only [hh, Bool.false_eq_true, if_false]
      apply hnext fc ihfc
      unfold ScanLayerArtwork.special
      by_cases hs : attr.type = kSymbolArt
      · simp only [hs, if_true]
        by_cases ha : (PatternCollection.Add patterns attr.symbolPattern true).1 = true
        · simp only [ha, if_true]
          exact scanStyle_fst _ _ _ _
        · simp only [ha, Bool.false_eq_true, if_false]
          exact scanStyle_fst _ _ _ _
      · simp only [hs, if_false]
        by_cases hp : attr.type = kPluginArt
        · simp only [hp, if_true]
          rw [scanStyle_fst _ _ _ [], ihrc]
        · simp only [hp, if_false]
          exact scanStyle_fst _ _ _ _

theorem scanPaint_hasGradients (paint : Bool) (kind : AIColorTag) (pattern : Nat)
    (layer : Layer) (p : List Pattern) :
    (scanPaint paint kind pattern layer p).1.hasGradients =
      (layer.hasGradients || (paint && decide (kind = kGradient))) := by
  unfold scanPaint
  cases paint <;> cases kind <;> simp

theorem scanStyle_hasGradients (attr : ArtAttr) (layer : Layer) (p : List Pattern) :
    (scanStyle attr layer p).1.hasGradients = (layer.hasGradients || paintsGradient attr) := by
  unfold scanStyle paintsGradient
  simp only [scanPaint_hasGradients]
  by_cases h : attr.opacity ≠ 1
  · rw [if_pos h, Bool.or_assoc]
  · rw [if_neg h, Bool.or_assoc]

theorem scanPaint_identity (paint : Bool) (kind : AIColorTag) (pattern : Nat)
    (layer : Layer) (p : List Pattern) :
    (scanPaint paint kind pattern layer p).1.layerHandle = layer.layerHandle ∧
    (scanPaint paint kind pattern layer p).1.name = layer.name ∧
    (scanPaint paint kind pattern layer p).1.artHandle = layer.artHandle ∧
    (scanPaint paint kind pattern layer p).1.crop = layer.crop ∧
    (scanPaint paint kind pattern layer p).1.bounds = layer.bounds := by
  unfold scanPaint
  cases paint <;> cases kind <;> simp

theorem scanStyle_identity (attr : ArtAttr) (layer : Layer) (p : List Pattern) :
    (scanStyle attr layer p).1.layerHandle = layer.layerHandle ∧
    (scanStyle attr layer p).1.name = layer.name ∧
    (scanStyle attr layer p).1.artHandle = layer.artHandle ∧
    (scanStyle attr layer p).1.crop = layer.crop ∧
    (scanStyle attr layer p).1.bounds = layer.bounds := by
  unfold scanStyle
  obtain ⟨h1, h2, h3, h4, h5⟩ := scanPaint_identity attr.style.strokePaint attr.style.strokeKind
    attr.style.strokePattern
    (scanPaint attr.style.fillPaint attr.style.fillKind attr.style.fillPattern
      (if attr.opacity ≠ 1 then { layer with hasAlpha := true } else layer) p).1
    (scanPaint attr.style.fillPaint attr.style.fillKind attr.style.fillPattern
      (if attr.opacity ≠ 1 then { layer with hasAlpha := true } else layer) p).2
  obtain ⟨g1, g2, g3, g4, g5⟩ := scanPaint_identity attr.style.fillPaint attr.style.fillKind
    attr.style.fillPattern (if attr.opacity ≠ 1 then { layer with hasAlpha := true } else layer) p
  rw [h1, h2, h3, h4, h5, g1, g2, g3, g4, g5]
  by_cases h : attr.opacity ≠ 1
  · rw [if_pos h]; exact ⟨rfl, rfl, rfl, rfl, rfl⟩
  · rw [if_neg h]; exact ⟨rfl, rfl, rfl, rfl, rfl⟩

/-- The scan leaves the handle, the name, the art handle and the crop flag of the
layer accumulator as they were. -/
theorem scanOwnArtwork_identity (UpdateBounds : AIRealRect → AIRealRect → AIRealRect)
    (nullArt : ArtAttr) :
    ∀ (art : Art) (layer : Layer),
      (scanOwnArtwork UpdateBounds nullArt art layer).layerHandle = layer.layerHandle ∧
      (scanOwnArtwork UpdateBounds nullArt art layer).name = layer.name ∧
      (scanOwnArtwork UpdateBounds nullArt art layer).artHandle = layer.artHandle ∧
      (scanOwnArtwork UpdateBounds nullArt art layer).crop = layer.crop := by
  intro art
  induction art with
  | null =>
    intro layer
    obtain ⟨h1, h2, h3, h4, _⟩ := scanStyle_identity nullArt
      { layer with bounds := UpdateBounds nullArt.bounds layer.bounds } []
    exact ⟨h1, h2, h3, h4⟩
  | art attr pa rc fc sib _ ihrc ihfc ihsib =>
    intro layer
    have hnext : ∀ (h : Art), (∀ (l : Layer),
          (scanOwnArtwork UpdateBounds nullArt h l).layerHandle = l.layerHandle ∧
          (scanOwnArtwork UpdateBounds nullArt h l).name = l.name ∧
          (scanOwnArtwork UpdateBounds nullArt h l).artHandle = l.artHandle ∧
          (scanOwnArtwork UpdateBounds nullArt h l).crop = l.crop) →
        ∀ (l : Layer),
          (scanOwnArtwork.unlessNull UpdateBounds nullArt h l).layerHandle = l.layerHandle ∧
          (scanOwnArtwork.unlessNull UpdateBounds nullArt h l).name = l.name ∧
          (scanOwnArtwork.unlessNull UpdateBounds nullArt h l).artHandle = l.artHandle ∧
          (scanOwnArtwork.unlessNull UpdateBounds nullArt h l).crop = l.crop := by
      intro h ih l
      cases h with
      | null => exact ⟨rfl, rfl, rfl, rfl⟩
      | art a2 p2 r2 f2 s2 => exact ih l
    rw [scanOwnArtwork_art]
    obtain ⟨a1, a2, a3, a4⟩ := hnext sib ihsib
      (scanOwnArtwork.visit UpdateBounds nullArt attr rc fc layer)
    rw [a1, a2, a3, a4]
    unfold scanOwnArtwork.visit
    by_cases hh : attr.hidden = true
    · simp only [hh, if_true, and_self]
    · simp only [hh, Bool.false_eq_true, if_false]
      obtain ⟨b1, b2, b3, b4⟩ := hnext fc ihfc
        (scanStyle attr (if attr.type = kSymbolArt then
            { layer with bounds := UpdateBounds attr.bounds layer.bounds }
          else if attr.type = kPluginArt then
            scanOwnArtwork UpdateBounds nullArt rc
              { layer with bounds := UpdateBounds attr.bounds layer.bounds }
          else { layer with bounds := UpdateBounds attr.bounds layer.bounds }) []).1
      rw [b1, b2, b3, b4]
      obtain ⟨c1, c2, c3, c4, _⟩ := scanStyle_identity attr
        (if attr.type = kSymbolArt then
            { layer with bounds := UpdateBounds attr.bounds layer.bounds }
          else if attr.type = kPluginArt then
            scanOwnArtwork UpdateBounds nullArt rc
              { layer with bounds := UpdateBounds attr.bounds layer.bounds }
          else { layer with bounds := UpdateBounds attr.bounds layer.bounds }) []
      rw [c1, c2, c3, c4]
      by_cases hs : attr.type = kSymbolArt
      · simp only [hs, if_true, and_self]
      · simp only [hs, if_false]
        by_cases hp : attr.type = kPluginArt
        · simp only [hp, if_true]
          exact ihrc _
        · simp only [hp, if_false, and_self]

theorem scansGradient_art (nullArt : ArtAttr) (attr : ArtAttr) (pa rc fc sib : Art) :
    scansGradient nullArt (Art.art attr pa rc fc sib) =
      ((!attr.hidden &&
        (paintsGradient attr ||
          (decide (attr.type ≠ kSymbolArt) && decide (attr.type = kPluginArt) &&
            scansGradient nullArt rc) ||
          scansGradient.unlessNull nullArt fc)) ||
        scansGradient.unlessNull nullArt sib) := by
  cases sib <;> cases fc <;> rfl

/-- The layer accumulator flags gradients after the scan exactly when it did
before or the scan met an art of the layer painted with a gradient. -/
theorem scanOwnArtwork_hasGradients (UpdateBounds : AIRealRect → AIRealRect → AIRealRect)
    (nullArt : ArtAttr) :
    ∀ (art : Art) (layer : Layer),
      (scanOwnArtwork UpdateBounds nullArt art layer).hasGradients =
        (layer.hasGradients || scansGradient nullArt art) := by
  intro art
  induction art with
  | null =>
    intro layer
    simp only [scanOwnArtwork, scansGradient, scanStyle_hasGradients]
  | art attr pa rc fc sib _ ihrc ihfc ihsib =>
    intro layer
    have hnext : ∀ (h : Art), (∀ (l : Layer),
          (scanOwnArtwork UpdateBounds nullArt h l).hasGradients =
            (l.hasGradients || scansGradient nullArt h)) →
        ∀ (l : Layer), (scanOwnArtwork.unlessNull UpdateBounds nullArt h l).hasGradients =
          (l.hasGradients || scansGradient.unlessNull nullArt h) := by
      intro h ih l
      cases h with
      | null => simp [scanOwnArtwork.unlessNull, scansGradient.unlessNull]
      | art a2 p2 r2 f2 s2 => exact ih l
    rw [scanOwnArtwork_art, scansGradient_art, hnext sib ihsib]
    unfold scanOwnArtwork.visit
    by_cases hh : attr.hidden = true
    · simp only [hh, if_true, Bool.not_true, Bool.false_and, Bool.false_or]
    · simp only [hh, Bool.false_eq_true, if_false]
      rw [hnext fc ihfc, scanStyle_hasGradients]
      by_cases hs : attr.type = kSymbolArt
      · simp [hs, Bool.or_assoc]
      · by_cases hp : attr.type = kPluginArt
        · rw [if_neg hs, if_pos hp, ihrc]
          simp only [hs, hp, ne_eq, not_false_eq_true, decide_True, Bool.true_and]
          generalize layer.hasGradients = a
          generalize scansGradient nullArt rc = b
          generalize paintsGradient attr = c
          generalize scansGradient.unlessNull nullArt fc = d
          generalize scansGradient.unlessNull nullArt sib = e
          cases a <;> cases b <;> cases c <;> cases d <;> cases e <;> simp
        · simp [hs, hp, Bool.or_assoc]

/-! ## Lemmas on the pattern registry -/

theorem PatternCollection_Add_find {patterns : List Pattern} {P : Nat} {r : Pattern}
    (h : PatternCollection.Find patterns P = some r) (Q : Nat) (b : Bool) :
    PatternCollection.Find (PatternCollection.Add patterns Q b).2 P = some r := by
  unfold PatternCollection.Add
  split
  · exact h
  · unfold PatternCollection.Find at h ⊢
    simp [List.find?_append, h]

theorem PatternCollection_Add_new {patterns : List Pattern} {P : Nat}
    (h : PatternCollection.Find patterns P = none) (b : Bool) :
    PatternCollection.Add patterns P b =
      (true, patterns ++ [{ patternHandle := P, isSymbol := b, hasGradients := false,
                            hasPatterns := false, hasAlpha := false }]) ∧
    PatternCollection.Find (PatternCollection.Add patterns P b).2 P =
      some { patternHandle := P, isSymbol := b, hasGradients := false,
             hasPatterns := false, hasAlpha := false } := by
  have hany : patterns.any (fun q => decide (q.patternHandle = P)) = false := by
    unfold PatternCollection.Find at h
    rw [List.find?_eq_none] at h
    rw [List.any_eq_false]
    intro x hx
    exact h x hx
  have hadd : PatternCollection.Add patterns P b =
      (true, patterns ++ [{ patternHandle := P, isSymbol := b, hasGradients := false,
                            hasPatterns := false, hasAlpha := false }]) := by
    unfold PatternCollection.Add
    rw [hany]
    rfl
  refine ⟨hadd, ?_⟩
  rw [hadd]
  unfold PatternCollection.Find at h ⊢
  simp [List.find?_append, h]

theorem PatternCollection_Add_true {patterns : List Pattern} {Q : Nat} {b : Bool}
    (h : (PatternCollection.Add patterns Q b).1 = true) :
    PatternCollection.Find patterns Q = none := by
  unfold PatternCollection.Add at h
  split at h
  · simp at h
  · rename_i hany
    unfold PatternCollection.Find
    rw [List.find?_eq_none]
    intro x hx hq
    exact hany (List.any_eq_true.mpr ⟨x, hx, hq⟩)

theorem PatternCollection_setFlags_other (Q P : Nat) (sl : Layer) (hne : Q ≠ P) :
    ∀ (patterns : List Pattern),
      PatternCollection.Find (PatternCollection.setFlags patterns Q sl) P =
        PatternCollection.Find patterns P
  | [] => rfl
  | x :: xs => by
    have ih := PatternCollection_setFlags_other Q P sl hne xs
    unfold PatternCollection.Find PatternCollection.setFlags at ih ⊢
    simp only [List.map_cons, List.find?_cons]
    by_cases hx : x.patternHandle = Q
    · have hxp : ¬ x.patternHandle = P := fun e => hne (hx.symm.trans e)
      simp only [hx, if_true, hxp, decide_False]
      have : ¬ Q = P := hne
      simp only [this, decide_False]
      exact ih
    · simp only [hx, if_false]
      by_cases hxp : x.patternHandle = P
      · simp only [hxp, decide_True]
      · simp only [hxp, decide_False]
        exact ih

theorem PatternCollection_setFlags_same (P : Nat) (sl : Layer) :
    ∀ (patterns : List Pattern) (r : Pattern), PatternCollection.Find patterns P = some r →
      PatternCollection.Find (PatternCollection.setFlags patterns P sl) P =
        some { r with hasGradients := sl.hasGradients, hasPatterns := sl.hasPatterns,
                      hasAlpha := sl.hasAlpha }
  | [], r, h => by simp [PatternCollection.Find] at h
  | x :: xs, r, h => by
    have ih := PatternCollection_setFlags_same P sl xs r
    unfold PatternCollection.Find at h
    unfold PatternCollection.Find PatternCollection.setFlags at ih ⊢
    simp only [List.map_cons, List.find?_cons] at h ⊢
    by_cases hx : x.patternHandle = P
    · simp only [hx, decide_True, Option.some.injEq] at h
      subst h
      simp [hx]
    · simp only [hx, decide_False] at h
      simp only [hx, if_false, decide_False]
      exact ih h

theorem scanPaint_find {patterns : List Pattern} {P : Nat} {r : Pattern}
    (h : PatternCollection.Find patterns P = some r) (paint : Bool) (kind : AIColorTag)
    (pattern : Nat) (layer : Layer) :
    PatternCollection.Find (scanPaint paint kind pattern layer patterns).2 P = some r := by
  unfold scanPaint
  cases paint
  · exact h
  · cases kind <;> first | exact h | exact PatternCollection_Add_find h _ _

theorem scanStyle_find {patterns : List Pattern} {P : Nat} {r : Pattern}
    (h : PatternCollection.Find patterns P = some r) (attr : ArtAttr) (layer : Layer) :
    PatternCollection.Find (scanStyle attr layer patterns).2 P = some r := by
  unfold scanStyle
  exact scanPaint_find (scanPaint_find h _ _ _ _) _ _ _ _

/-- A pattern record already in the registry is not touched by a scan. -/
theorem ScanLayerArtwork_find (UpdateBounds : AIRealRect → AIRealRect → AIRealRect)
    (newLayer : Layer) (nullArt : ArtAttr) (P : Nat) (r : Pattern) :
    ∀ (art : Art) (depth : Nat) (layer : Layer) (patterns : List Pattern),
      PatternCollection.Find patterns P = some r →
      PatternCollection.Find
        (ScanLayerArtwork UpdateBounds newLayer nullArt art depth layer patterns).2 P =
          some r := by
  intro art
  induction art with
  | null =>
    intro depth layer patterns h
    simp only [ScanLayerArtwork]
    exact scanStyle_find h _ _
  | art attr pa rc fc sib ihpa ihrc ihfc ihsib =>
    intro depth layer patterns h
    have hnext : ∀ (a : Art), (∀ (d : Nat) (l : Layer) (p : List Pattern),
          PatternCollection.Find p P = some r →
          PatternCollection.Find
            (ScanLayerArtwork UpdateBounds newLayer nullArt a d l p).2 P = some r) →
        ∀ (d : Nat) (q : Layer × List Pattern), PatternCollection.Find q.2 P = some r →
          PatternCollection.Find
            (ScanLayerArtwork.unlessNull UpdateBounds newLayer nullArt a d q).2 P = some r := by
      intro a ih d q hq
      cases a with
      | null => exact hq
      | art a2 p2 r2 f2 s2 => exact ih d q.1 q.2 hq
    rw [ScanLayerArtwork_art]
    apply hnext sib ihsib
    unfold ScanLayerArtwork.visit
    by_cases hh : attr.hidden = true
    · simp only [hh, if_true]
      exact h
    · simp only [hh, Bool.false_eq_true, if_false]
      apply hnext fc ihfc
      apply scanStyle_find
      unfold ScanLayerArtwork.special
      by_cases hs : attr.type = kSymbolArt
      · simp only [hs, if_true]
        by_cases ha : (PatternCollection.Add patterns attr.symbolPattern true).1 = true
        · simp only [ha, if_true]
          have hnone := PatternCollection_Add_true ha
          have hne : attr.symbolPattern ≠ P := by
            intro e
            rw [e, h] at hnone
            exact absurd hnone (by simp)
          rw [PatternCollection_setFlags_other _ _ _ hne]
          exact ihpa _ _ _ (PatternCollection_Add_find h _ _)
        · simp only [ha, Bool.false_eq_true, if_false]
          exact PatternCollection_Add_find h _ _
      · simp only [hs, if_false]
        by_cases hp : attr.type = kPluginArt
        · simp only [hp, if_true]
          exact ihrc _ _ _ h
        · simp only [hp, if_false]
          exact h

/-! ## Claims on the artwork scan -/

theorem ScanDocumentLoop_handles (UpdateBounds : AIRealRect → AIRealRect → AIRealRect)
    (newLayer : Layer) (nullArt : ArtAttr) (host : List AILayer) :
    ∀ (i : Nat) (state : List Layer × List Pattern), i ≤ host.length →
      (ScanDocumentLoop UpdateBounds newLayer nullArt host i state).1.map
          (fun l => (l.layerHandle, l.name)) =
        state.1.map (fun l => (l.layerHandle, l.name)) ++
          (((host.take i).reverse.filter (fun h => h.visible)).map (fun h => (h.layerHandle, h.title)))
  | 0, state, _ => by simp [ScanDocumentLoop]
  | i + 1, state, hi => by
    have hlt : i < host.length := hi
    have htake : host.take (i + 1) = host.take i ++ [host[i]] := by
      rw [List.take_succ, List.getElem?_eq_getElem hlt]
      rfl
    unfold ScanDocumentLoop
    rw [List.getElem?_eq_getElem hlt, htake]
    simp only [List.reverse_append, List.reverse_cons, List.reverse_nil, List.nil_append,
      List.singleton_append, List.filter_cons]
    by_cases hv : (host[i]).visible = true
    · simp only [hv, if_true]
      rw [ScanDocumentLoop_handles UpdateBounds newLayer nullArt host i _ (Nat.le_of_lt hlt)]
      have hid : (ScanLayer UpdateBounds newLayer nullArt host[i]
          (AddLayer newLayer host[i]) state.2).1.layerHandle = (host[i]).layerHandle := by
        unfold ScanLayer
        rw [ScanLayerArtwork_fst]
        exact (scanOwnArtwork_identity UpdateBounds nullArt _ _).1
      have hname : (ScanLayer UpdateBounds newLayer nullArt host[i]
          (AddLayer newLayer host[i]) state.2).1.name = (host[i]).title := by
        unfold ScanLayer
        rw [ScanLayerArtwork_fst]
        exact (scanOwnArtwork_identity UpdateBounds nullArt _ _).2.1
      simp [hid, hname]
    · simp only [hv, Bool.false_eq_true, if_false]
      exact ScanDocumentLoop_handles UpdateBounds newLayer nullArt host i _ (Nat.le_of_lt hlt)

/-- C21: `ScanDocument` yields one `Layer` record for each visible host layer and
none for an invisible one, in order of decreasing host layer index: the handles
and names of the records are the handles and titles of the visible host layers,
the last host layer first. -/
theorem ScanDocument_layers (UpdateBounds : AIRealRect → AIRealRect → AIRealRect)
    (newLayer : Layer) (nullArt : ArtAttr) (host : List AILayer) :
    (ScanDocument UpdateBounds newLayer nullArt host).1.map (fun l => (l.layerHandle, l.name)) =
      (host.reverse.filter (fun h => h.visible)).map (fun h => (h.layerHandle, h.title)) := by
  unfold ScanDocument
  rw [ScanDocumentLoop_handles UpdateBounds newLayer nullArt host host.length _ (Nat.le_refl _)]
  simp

theorem ScanLayerArtwork_unlessNull_find (UpdateBounds : AIRealRect → AIRealRect → AIRealRect)
    (newLayer : Layer) (nullArt : ArtAttr) {P : Nat} {r : Pattern} (a : Art) (d : Nat)
    (q : Layer × List Pattern) (hq : PatternCollection.Find q.2 P = some r) :
    PatternCollection.Find
      (ScanLayerArtwork.unlessNull UpdateBounds newLayer nullArt a d q).2 P = some r := by
  cases a with
  | null => exact hq
  | art a2 p2 r2 f2 s2 =>
    exact ScanLayerArtwork_find UpdateBounds newLayer nullArt P r _ d q.1 q.2 hq

/-- C22: when the scan visits a visible symbol instance whose symbol pattern is
not yet registered and whose pattern art holds an art painted with a gradient,
then afterwards the pattern record is registered as a symbol with
`hasGradients` set; the layer accumulator flags gradients only if it did before
or an art of the layer outside the pattern art is painted with a gradient; and
the layer accumulator, bounds included, is the same whatever the pattern art
is. -/
theorem ScanLayerArtwork_symbol_isolation
    (UpdateBounds : AIRealRect → AIRealRect → AIRealRect) (newLayer : Layer)
    (nullArt : ArtAttr) (attr : ArtAttr) (pa rc fc sib : Art) (depth : Nat) (layer : Layer)
    (patterns : List Pattern)
    (hvis : attr.hidden = false) (hsym : attr.type = kSymbolArt)
    (hfirst : PatternCollection.Find patterns attr.symbolPattern = none)
    (hgrad : scansGradient nullArt pa = true) :
    (∃ q, PatternCollection.Find
        (ScanLayerArtwork UpdateBounds newLayer nullArt (Art.art attr pa rc fc sib) depth layer
          patterns).2 attr.symbolPattern = some q ∧
      q.isSymbol = true ∧ q.hasGradients = true) ∧
    (ScanLayerArtwork UpdateBounds newLayer nullArt (Art.art attr pa rc fc sib) depth layer
        patterns).1.hasGradients =
      (layer.hasGradients || scansGradient nullArt (Art.art attr Art.null rc fc sib)) ∧
    (∀ (pa2 : Art) (depth2 : Nat) (patterns2 : List Pattern),
      (ScanLayerArtwork UpdateBounds newLayer nullArt (Art.art attr pa rc fc sib) depth layer
          patterns).1 =
        (ScanLayerArtwork UpdateBounds newLayer nullArt (Art.art attr pa2 rc fc sib) depth2
          layer patterns2).1) := by
  refine ⟨?_, ?_, ?_⟩
  · obtain ⟨hadd, hfind0⟩ := PatternCollection_Add_new hfirst true
    have hs := ScanLayerArtwork_find UpdateBounds newLayer nullArt attr.symbolPattern _ pa
      (depth + 1) newLayer _ hfind0
    have hflag := PatternCollection_setFlags_same attr.symbolPattern
      (ScanLayerArtwork UpdateBounds newLayer nullArt pa (depth + 1) newLayer
        (PatternCollection.Add patterns attr.symbolPattern true).2).1 _ _ hs
    have key : PatternCollection.Find
        (ScanLayerArtwork UpdateBounds newLayer nullArt (Art.art attr pa rc fc sib) depth layer
          patterns).2 attr.symbolPattern =
        some { patternHandle := attr.symbolPattern, isSymbol := true,
               hasGradients := (ScanLayerArtwork UpdateBounds newLayer nullArt pa (depth + 1)
                 newLayer (PatternCollection.Add patterns attr.symbolPattern true).2).1.hasGradients
               hasPatterns := (ScanLayerArtwork UpdateBounds newLayer nullArt pa (depth + 1)
                 newLayer (PatternCollection.Add patterns attr.symbolPattern true).2).1.hasPatterns
               hasAlpha := (ScanLayerArtwork UpdateBounds newLayer nullArt pa (depth + 1)
                 newLayer (PatternCollection.Add patterns attr.symbolPattern true).2).1.hasAlpha
               } := by
      rw [ScanLayerArtwork_art]
      apply ScanLayerArtwork_unlessNull_find
      unfold ScanLayerArtwork.visit
      simp only [hvis, Bool.false_eq_true, if_false]
      apply ScanLayerArtwork_unlessNull_find
      apply scanStyle_find
      unfold ScanLayerArtwork.special
      simp only [hsym, if_true]
      have h1 : (PatternCollection.Add patterns attr.symbolPattern true).1 = true := by
        rw [hadd]
      simp only [h1, if_true]
      exact hflag
    refine ⟨_, key, rfl, ?_⟩
    show (ScanLayerArtwork UpdateBounds newLayer nullArt pa (depth + 1) newLayer
      (PatternCollection.Add patterns attr.symbolPattern true).2).1.hasGradients = true
    rw [ScanLayerArtwork_fst, scanOwnArtwork_hasGradients, hgrad, Bool.or_true]
  · rw [ScanLayerArtwork_fst, scanOwnArtwork_hasGradients, scansGradient_art,
      scansGradient_art]
  · intro pa2 depth2 patterns2
    rw [ScanLayerArtwork_fst, ScanLayerArtwork_fst, scanOwnArtwork_art, scanOwnArtwork_art]

/-- C22, for a symbol instance with bounds `squareBounds` whose pattern art is a
path with bounds `wideBounds` filled with a gradient, scanned into a fresh layer:
the pattern record has `hasGradients` set, the layer has not, and the layer
bounds are `squareBounds`. -/
theorem ScanLayerArtwork_symbol_isolation_witness :
    (∃ q, PatternCollection.Find
        (ScanLayerArtwork UpdateBounds Layer.fresh ArtAttr.sampleNull Art.sampleSymbol 1
          Layer.fresh []).2 7 = some q ∧
      q.isSymbol = true ∧ q.hasGradients = true) ∧
    (ScanLayerArtwork UpdateBounds Layer.fresh ArtAttr.sampleNull Art.sampleSymbol 1
      Layer.fresh []).1.hasGradients = false ∧
    (ScanLayerArtwork UpdateBounds Layer.fresh ArtAttr.sampleNull Art.sampleSymbol 1
      Layer.fresh []).1.bounds = squareBounds :=
  ⟨(ScanLayerArtwork_symbol_isolation UpdateBounds Layer.fresh ArtAttr.sampleNull
      (ArtAttr.symbol squareBounds)
      (Art.art (ArtAttr.gradient wideBounds) Art.null Art.null Art.null Art.null)
      Art.null Art.null Art.null 1 Layer.fresh [] rfl rfl rfl (by decide)).1,
    by decide,
    by
      simp [ScanLayerArtwork, Art.sampleSymbol, scanStyle, scanPaint, PatternCollection.Add,
        PatternCollection.setFlags, ArtAttr.symbol, ArtAttr.plain, ArtAttr.gradient,
        AIPathStyle.none, Layer.fresh, UpdateBounds, sentinelBounds, squareBounds, FLT_MAX]
      norm_num⟩

/-- C25: an art carrying the hidden attribute contributes nothing, whatever its
pattern art, plug-in result and children are: when it has no sibling the scan
returns the layer accumulator and the pattern registry as they were, and when it
has one the scan is the scan of the sibling chain. -/
theorem ScanLayerArtwork_hidden (UpdateBounds : AIRealRect → AIRealRect → AIRealRect)
    (newLayer : Layer) (nullArt : ArtAttr) (attr : ArtAttr) (pa rc fc : Art) (depth : Nat)
    (layer : Layer) (patterns : List Pattern) (hhid : attr.hidden = true) :
    ScanLayerArtwork UpdateBounds newLayer nullArt (Art.art attr pa rc fc Art.null) depth layer
        patterns = (layer, patterns) ∧
    ∀ (a2 : ArtAttr) (p2 r2 f2 s2 : Art),
      ScanLayerArtwork UpdateBounds newLayer nullArt
          (Art.art attr pa rc fc (Art.art a2 p2 r2 f2 s2)) depth layer patterns =
        ScanLayerArtwork UpdateBounds newLayer nullArt (Art.art a2 p2 r2 f2 s2) depth layer
          patterns := by
  constructor
  · rw [ScanLayerArtwork_art]
    simp [ScanLayerArtwork.unlessNull, ScanLayerArtwork.visit, hhid]
  · intro a2 p2 r2 f2 s2
    rw [ScanLayerArtwork_art]
    simp [ScanLayerArtwork.unlessNull, ScanLayerArtwork.visit, hhid]

/-- C25, for a hidden art with a gradient fill and a gradient-filled child: the
layer accumulator and the registry are unchanged. -/
theorem ScanLayerArtwork_hidden_witness :
    ScanLayerArtwork UpdateBounds Layer.fresh ArtAttr.sampleNull
        (Art.art { ArtAttr.gradient wideBounds with hidden := true } Art.null Art.null
          (Art.art (ArtAttr.gradient wideBounds) Art.null Art.null Art.null Art.null) Art.null)
        1 Layer.fresh [] = (Layer.fresh, []) :=
  (ScanLayerArtwork_hidden UpdateBounds Layer.fresh ArtAttr.sampleNull
    { ArtAttr.gradient wideBounds with hidden := true } Art.null Art.null
    (Art.art (ArtAttr.gradient wideBounds) Art.null Art.null Art.null Art.null) 1
    Layer.fresh [] rfl).1

/-- C26 (code as it stands): called on a `NULL` root, `ScanLayerArtwork` runs its
loop body once.  With `wideBounds` and a gradient fill left in the locals, a layer
accumulator with bounds `squareBounds` and no flag comes back with bounds
`wideBounds` and `hasGradients` set; and a symbol instance whose pattern has no
art gets a pattern record with `hasGradients` set. -/
theorem ScanLayerArtwork_null_root_runs_body :
    (ScanLayerArtwork UpdateBounds Layer.fresh ArtAttr.sampleNull Art.null 2
        (Layer.sampleWith squareBounds false) []).1 =
      { Layer.sampleWith squareBounds false with bounds := wideBounds, hasGradients := true } ∧
    (ScanLayerArtwork UpdateBounds Layer.fresh ArtAttr.sampleNull Art.sampleEmptySymbol 1
        Layer.fresh []).2.map (fun q => (q.patternHandle, q.hasGradients)) = [(7, true)] := by
  constructor
  · simp [ScanLayerArtwork, scanStyle, scanPaint, ArtAttr.sampleNull, ArtAttr.gradient,
      ArtAttr.plain, AIPathStyle.none, Layer.sampleWith, Layer.sample, UpdateBounds,
      wideBounds, squareBounds]
    norm_num
  · decide

/-! ## Lemmas on option application -/

theorem optionsOnly_refl (f : Function) : optionsOnly f f := rfl

theorem optionsOnly_trans {f g h : Function} (h1 : optionsOnly f g) (h2 : optionsOnly g h) :
    optionsOnly f h := by
  unfold optionsOnly at h1 h2 ⊢
  rw [h2, h1]

theorem cropOnly_refl (a : List Layer) : cropOnly a a := rfl

theorem cropOnly_trans {a b c : List Layer} (h1 : cropOnly a b) (h2 : cropOnly b c) :
    cropOnly a c := by
  unfold cropOnly at h1 h2 ⊢
  rw [h2, h1]

theorem cropOnly_length {a b : List Layer} (h : cropOnly a b) : b.length = a.length := by
  have := congrArg List.length h
  simpa using this

theorem cropOnly_set {store : List Layer} {p : Nat} {l : Layer} (hl : store[p]? = some l)
    (b : Bool) : cropOnly store (store.set p { l with crop := b }) := by
  unfold cropOnly
  apply List.ext_getElem?
  intro i
  simp only [List.getElem?_map, List.getElem?_set]
  by_cases hpi : p = i
  · subst hpi
    have hlt := (List.getElem?_eq_some_iff.mp hl).1
    simp [hlt, hl]
  · simp [hpi]

theorem SetParameter_step (Tokenize : String → String → List String)
    (strtod : String → AIReal) (key value : String) (f : DrawFunction) (store : List Layer)
    (p : Nat) (rest : List Nat) (hp : f.layers = p :: rest) (hlt : p < store.length) :
    ∃ g store2, SetParameter Tokenize strtod key value f store = some (g, store2) ∧
      optionsOnly f g ∧ cropOnly store store2 := by
  have hl : store[p]? = some store[p] := List.getElem?_eq_getElem hlt
  by_cases h1 : key = "origin" ∨ key = "o"
  · refine ⟨_, _, SetParameter_origin_key h1 value f store, ?_, cropOnly_refl _⟩
    unfold SetParameter.origin optionsOnly
    dsimp only
    split_ifs <;> rfl
  · by_cases h2 : key = "rasterize" ∨ key = "rast"
    · refine ⟨_, _, SetParameter_rasterize_key h2 value f store, ?_, cropOnly_refl _⟩
      unfold SetParameter.rasterize optionsOnly
      split_ifs <;> rfl
    · by_cases h3 : key = "crop" ∨ key = "c"
      · rw [SetParameter_crop_key h3]
        unfold SetParameter.crop
        split_ifs
        · exact ⟨{ f with crop := true }, store.set p { store[p] with crop := true },
            by simp [setFirstLayerCrop, hp, hl], rfl, cropOnly_set hl true⟩
        · exact ⟨{ f with crop := false }, store.set p { store[p] with crop := false },
            by simp [setFirstLayerCrop, hp, hl], rfl, cropOnly_set hl false⟩
        · exact ⟨_, _, rfl, rfl, cropOnly_refl _⟩
      · refine ⟨f, store, ?_, rfl, cropOnly_refl _⟩
        have a1 : key ≠ "origin" := fun e => h1 (Or.inl e)
        have a2 : key ≠ "o" := fun e => h1 (Or.inr e)
        have a3 : key ≠ "rasterize" := fun e => h2 (Or.inl e)
        have a4 : key ≠ "rast" := fun e => h2 (Or.inr e)
        have a5 : key ≠ "crop" := fun e => h3 (Or.inl e)
        have a6 : key ≠ "c" := fun e => h3 (Or.inr e)
        exact SetParameter_other_key a1 a2 a3 a4 a5 a6 value f store

theorem SetFunctionOptions_step (Tokenize : String → String → List String)
    (strtod : String → AIReal) (CleanParameter ToLower : String → String) :
    ∀ (options : List String) (f : DrawFunction) (store : List Layer) (p : Nat)
      (rest : List Nat), f.layers = p :: rest → p < store.length →
      ∃ g store2, SetFunctionOptions Tokenize strtod CleanParameter ToLower options f store =
          some (g, store2) ∧
        optionsOnly f g ∧ cropOnly store store2
  | [], f, store, _, _, _, _ => ⟨f, store, rfl, rfl, cropOnly_refl _⟩
  | option :: options, f, store, p, rest, hp, hlt => by
    unfold SetFunctionOptions
    simp only
    split_ifs with h2
    · cases ht : f.type with
      | kDrawFunction =>
        simp only
        obtain ⟨g, store2, hs, ho, hc⟩ := SetParameter_step Tokenize strtod
          (ToLower (CleanParameter ((Tokenize option ":").getD 0 "")))
          (CleanParameter ((Tokenize option ":").getD 1 "")) f store p rest hp hlt
        rw [hs]
        simp only
        have hg : g.layers = p :: rest := by
          unfold optionsOnly at ho
          rw [ho]; exact hp
        obtain ⟨g2, store3, hs2, ho2, hc2⟩ := SetFunctionOptions_step Tokenize strtod
          CleanParameter ToLower options g store2 p rest hg
          (by rw [cropOnly_length hc]; exact hlt)
        exact ⟨g2, store3, hs2, optionsOnly_trans ho ho2, cropOnly_trans hc hc2⟩
      | kAnimationFunction =>
        simp only
        exact SetFunctionOptions_step Tokenize strtod CleanParameter ToLower options f store
          p rest hp hlt
      | kAnyFunction =>
        simp only
        exact SetFunctionOptions_step Tokenize strtod CleanParameter ToLower options f store
          p rest hp hlt
    · exact SetFunctionOptions_step Tokenize strtod CleanParameter ToLower options f store
        p rest hp hlt

/-! ## Lemmas on `ParseLayers` -/

theorem eq_take_append_last {α : Type} {l : List α} {j : Nat} {a : α} (h : l[j]? = some a)
    (hj : j + 1 = l.length) : l = l.take j ++ [a] := by
  obtain ⟨hlt, hget⟩ := List.getElem?_eq_some_iff.mp h
  have hdrop : l.drop j = [a] := by
    rw [List.drop_eq_getElem_cons hlt, hget, List.drop_of_length_le (by omega)]
  calc l = l.take j ++ l.drop j := (List.take_append_drop j l).symm
    _ = l.take j ++ [a] := by rw [hdrop]

theorem AddDrawFunction_last (base : Function) (c : FunctionCollection) (n : String)
    (hall : ∀ f ∈ c.functions, f.type = kDrawFunction) :
    ∃ pre g c2, c.AddDrawFunction base n = some (pre.length, c2) ∧
      c2.functions = pre ++ [g] ∧
      (c.functions = pre ++ [g] ∨
        (c.functions = pre ∧
          ∃ u, g = { DrawFunction.new base with requestedName := n, name := u })) := by
  by_cases hl : ∃ j, c.FindDrawFunction n = (some j, true)
  · obtain ⟨j, hj⟩ := hl
    obtain ⟨f, hf, hr, _⟩ := FindDrawFunction_isLast hj
    obtain ⟨_, hno⟩ := (isMostRecentDraw_iff hf).mp hr
    obtain ⟨hlt, _⟩ := List.getElem?_eq_some_iff.mp hf
    have hlast : j + 1 = c.functions.length := by
      by_contra hne
      have hlt2 : j + 1 < c.functions.length := by omega
      have hg : c.functions[j + 1]? = some c.functions[j + 1] := List.getElem?_eq_getElem hlt2
      exact hno (j + 1) _ (by omega) hg (hall _ (List.getElem?_mem hg))
    have hsplit := eq_take_append_last hf hlast
    refine ⟨c.functions.take j, f, c, ?_, hsplit, Or.inl hsplit⟩
    have hlen : (c.functions.take j).length = j := by
      rw [List.length_take]; omega
    rw [hlen]
    unfold FunctionCollection.AddDrawFunction
    simp only [hj, if_true]
  · obtain ⟨u, _, hu⟩ := AddDrawFunction_create base (fun j hj => hl ⟨j, hj⟩)
    exact ⟨c.functions, _, _, hu, rfl, Or.inr ⟨rfl, u, rfl⟩⟩

theorem flagOr_cropOnly {a b : List Layer} (h : cropOnly a b) (flag : Layer → Bool)
    (hflag : ∀ l : Layer, flag { l with crop := false } = flag l) (members : List Nat) :
    flagOr b flag members = flagOr a flag members := by
  unfold flagOr
  congr 1
  funext i
  have hi : (b.map (fun l => { l with crop := false }))[i]? =
      (a.map (fun l => { l with crop := false }))[i]? := by rw [h]
  simp only [List.getElem?_map] at hi
  cases hb : b[i]? with
  | none =>
    cases ha : a[i]? with
    | none => rfl
    | some la => rw [hb, ha] at hi; simp at hi
  | some lb =>
    cases ha : a[i]? with
    | none => rw [hb, ha] at hi; simp at hi
    | some la =>
      rw [hb, ha] at hi
      simp only [Option.map_some', Option.some.injEq] at hi
      simp only
      rw [← hflag lb, ← hflag la, hi]

theorem flagOr_append (store : List Layer) (flag : Layer → Bool) (members : List Nat)
    (k : Nat) (layer : Layer) (hk : store[k]? = some layer) :
    flagOr store flag (members ++ [k]) = (flagOr store flag members || flag layer) := by
  unfold flagOr
  simp [List.any_append, hk]

theorem ParseLayer_step (env : Helpers) (parseLayerName : String → String → String × String)
    (k : Nat) (state : FunctionCollection × List Layer) (hinv : ParseInvariant k state)
    (hk : k < state.2.length) :
    ∃ next, ParseLayer env parseLayerName k state = some next ∧
      ParseInvariant (k + 1) next ∧ cropOnly state.2 next.2 := by
  obtain ⟨c, store⟩ := state
  obtain ⟨hall, hflags, hflat⟩ := hinv
  simp only at hall hflags hflat hk
  have hlayer : store[k]? = some store[k] := List.getElem?_eq_getElem hk
  obtain ⟨pre, g, c2, hadd, hc2, hcase⟩ :=
    AddDrawFunction_last env.base c (parseLayerName store[k].name "").1 hall
  have hA : (∀ f ∈ pre ++ [g], f.type = kDrawFunction) ∧
      (∀ f ∈ pre ++ [g],
        f.hasAlpha = flagOr store (fun l => l.hasAlpha) f.layers ∧
        f.hasGradients = flagOr store (fun l => l.hasGradients) f.layers ∧
        f.hasPatterns = flagOr store (fun l => l.hasPatterns) f.layers) ∧
      ((pre ++ [g]).map (fun f => f.layers)).flatten = List.range k := by
    rcases hcase with h | ⟨h, u, hg⟩
    · rw [← h]; exact ⟨hall, hflags, hflat⟩
    · rw [← h]
      refine ⟨?_, ?_, ?_⟩
      · intro f hf
        rcases List.mem_append.mp hf with hf | hf
        · exact hall f hf
        · rw [List.mem_singleton.mp hf, hg]; rfl
      · intro f hf
        rcases List.mem_append.mp hf with hf | hf
        · exact hflags f hf
        · rw [List.mem_singleton.mp hf, hg]
          exact ⟨rfl, rfl, rfl⟩
      · rw [List.map_append, List.flatten_append, hflat, hg]
        simp [DrawFunction.new]
  obtain ⟨hA1, hA2, hA3⟩ := hA
  have hgget : c2.functions[pre.length]? = some g := by
    rw [hc2]; simp
  have hgmem : g ∈ pre ++ [g] := by simp
  have hmem : ∀ i ∈ g.layers, i < k := by
    intro i hi
    have : i ∈ ((pre ++ [g]).map (fun f => f.layers)).flatten :=
      List.mem_flatten.mpr ⟨g.layers, List.mem_map.mpr ⟨g, hgmem, rfl⟩, hi⟩
    rw [hA3] at this
    exact List.mem_range.mp this
  have hhead : ∃ p rest, g.layers ++ [k] = p :: rest ∧ p < store.length := by
    cases hgl : g.layers with
    | nil => exact ⟨k, [], rfl, hk⟩
    | cons a as =>
      refine ⟨a, as ++ [k], rfl, ?_⟩
      have := hmem a (by rw [hgl]; simp)
      omega
  obtain ⟨p, rest, hp, hplt⟩ := hhead
  obtain ⟨f2, store2, hs, ho, hc⟩ := SetFunctionOptions_step env.Tokenize env.strtod
    env.CleanParameter env.ToLower (env.Tokenize (parseLayerName store[k].name "").2 ";")
    { g with
      layers := g.layers ++ [k]
      hasAlpha := g.hasAlpha || store[k].hasAlpha
      hasGradients := g.hasGradients || store[k].hasGradients
      hasPatterns := g.hasPatterns || store[k].hasPatterns
      canvas := env.mainCanvas
      bounds := env.UpdateBounds store[k].bounds g.bounds } store p rest hp hplt
  refine ⟨({ c2 with functions := c2.functions.set pre.length f2 }, store2), ?_, ?_, hc⟩
  · unfold ParseLayer
    simp only [hlayer, hadd, hgget, hs]
  · have hset : c2.functions.set pre.length f2 = pre ++ [f2] := by
      rw [hc2]; simp
    unfold optionsOnly at ho
    have e1 : f2.type = kDrawFunction := by rw [ho]; exact hA1 g hgmem
    have e2 : f2.layers = g.layers ++ [k] := by rw [ho]
    have e3 : f2.hasAlpha = (g.hasAlpha || store[k].hasAlpha) := by rw [ho]
    have e4 : f2.hasGradients = (g.hasGradients || store[k].hasGradients) := by rw [ho]
    have e5 : f2.hasPatterns = (g.hasPatterns || store[k].hasPatterns) := by rw [ho]
    obtain ⟨g1, g2, g3⟩ := hA2 g hgmem
    refine ⟨?_, ?_, ?_⟩
    · intro f hf
      simp only [hset] at hf
      rcases List.mem_append.mp hf with hf | hf
      · exact hA1 f (List.mem_append_left _ hf)
      · rw [List.mem_singleton.mp hf]; exact e1
    · intro f hf
      simp only [hset] at hf
      simp only
      rw [flagOr_cropOnly hc (fun l => l.hasAlpha) (fun _ => rfl),
        flagOr_cropOnly hc (fun l => l.hasGradients) (fun _ => rfl),
        flagOr_cropOnly hc (fun l => l.hasPatterns) (fun _ => rfl)]
      rcases List.mem_append.mp hf with hf | hf
      · exact hA2 f (List.mem_append_left _ hf)
      · rw [List.mem_singleton.mp hf, e2, e3, e4, e5,
          flagOr_append store _ _ k _ hlayer, flagOr_append store _ _ k _ hlayer,
          flagOr_append store _ _ k _ hlayer, g1, g2, g3]
        exact ⟨rfl, rfl, rfl⟩
    · simp only [hset]
      rw [List.map_append, List.flatten_append] at hA3 ⊢
      simp only [List.map_cons, List.map_nil, List.flatten_cons, List.flatten_nil,
        List.append_nil] at hA3 ⊢
      rw [e2, ← List.append_assoc, hA3, List.range_succ]

theorem ParseLayersLoop_invariant (env : Helpers)
    (parseLayerName : String → String → String × String) :
    ∀ (count i : Nat) (state : FunctionCollection × List Layer), ParseInvariant i state →
      i + count = state.2.length →
      ∃ final, ParseLayersLoop env parseLayerName count i state = some final ∧
        ParseInvariant (i + count) final ∧ cropOnly state.2 final.2
  | 0, i, state, hinv, _ => ⟨state, rfl, hinv, cropOnly_refl _⟩
  | count + 1, i, state, hinv, hlen => by
    obtain ⟨next, hn, hinv2, hc⟩ := ParseLayer_step env parseLayerName i state hinv (by omega)
    obtain ⟨final, hf, hinv3, hc2⟩ := ParseLayersLoop_invariant env parseLayerName count (i + 1)
      next hinv2 (by rw [cropOnly_length hc]; omega)
    refine ⟨final, ?_, ?_, cropOnly_trans hc hc2⟩
    · unfold ParseLayersLoop
      simp only [hn]
      exact hf
    · have : i + (count + 1) = i + 1 + count := by omega
      rw [this]; exact hinv3

/-- `ParseLayers` on a fresh function collection returns, and what it returns
satisfies the invariant for all the layers. -/
theorem ParseLayers_invariant (env : Helpers)
    (parseLayerName : String → String → String × String) (layers : List Layer) :
    ∃ final, ParseLayers env parseLayerName FunctionCollection.new layers = some final ∧
      ParseInvariant layers.length final ∧ cropOnly layers final.2 := by
  have h0 : ParseInvariant 0 (FunctionCollection.new, layers) := by
    refine ⟨?_, ?_, ?_⟩ <;> simp [FunctionCollection.new]
  obtain ⟨final, hf, hinv, hc⟩ := ParseLayersLoop_invariant env parseLayerName layers.length 0
    (FunctionCollection.new, layers) h0 (by simp)
  refine ⟨final, hf, ?_, hc⟩
  simpa using hinv

/-- In a list of lists, the lists that hold `i` are at most as many as the
occurrences of `i` in the lists read one after another. -/
theorem filter_mem_length_le_count (i : Nat) :
    ∀ L : List (List Nat), (L.filter (fun l => decide (i ∈ l))).length ≤ L.flatten.count i
  | [] => by simp
  | l :: L => by
    have ih := filter_mem_length_le_count i L
    rw [List.flatten_cons, List.count_append]
    by_cases h : i ∈ l
    · have h1 : 1 ≤ l.count i := List.one_le_count_iff.mpr h
      simp only [List.filter_cons, h, decide_True, if_true, List.length_cons]
      omega
    · simp only [List.filter_cons, h, decide_False]
      simp only [Bool.false_eq_true, if_false]
      omega

/-- When the lists read one after another are `0, …, n - 1`, each `i < n` is in
exactly one of them. -/
theorem filter_mem_length_eq_one (L : List (List Nat)) (n : Nat)
    (h : L.flatten = List.range n) (i : Nat) (hi : i < n) :
    (L.filter (fun l => decide (i ∈ l))).length = 1 := by
  have hmem : i ∈ L.flatten := by rw [h]; exact List.mem_range.mpr hi
  have hle := filter_mem_length_le_count i L
  have hcount : L.flatten.count i = 1 :=
    List.count_eq_one_of_mem (by rw [h]; exact List.nodup_range n) hmem
  obtain ⟨l, hl, hil⟩ := List.mem_flatten.mp hmem
  have hpos : 0 < (L.filter (fun l => decide (i ∈ l))).length :=
    List.length_pos_of_mem (List.mem_filter.mpr ⟨hl, by simpa using hil⟩)
  omega

/-- C23: `ParseLayers` on a fresh function collection returns, and then every
function of the collection is a draw function whose `hasAlpha`, `hasGradients`
and `hasPatterns` each equal the logical OR of that flag over the layers its
layer list points to; the pointers of a layer list are in increasing order of
scan index, each to a scanned layer, and the layers differ from the scanned ones
at most in their crop flags. -/
theorem ParseLayers_flags_and_order (env : Helpers)
    (parseLayerName : String → String → String × String) (layers : List Layer) :
    ∃ c store, ParseLayers env parseLayerName FunctionCollection.new layers = some (c, store) ∧
      cropOnly layers store ∧
      ∀ f ∈ c.functions,
        f.type = kDrawFunction ∧
        f.hasAlpha = flagOr store (fun l => l.hasAlpha) f.layers ∧
        f.hasGradients = flagOr store (fun l => l.hasGradients) f.layers ∧
        f.hasPatterns = flagOr store (fun l => l.hasPatterns) f.layers ∧
        f.layers.Pairwise (fun a b => a < b) ∧
        ∀ i ∈ f.layers, i < store.length := by
  obtain ⟨⟨c, store⟩, hf, ⟨hall, hflags, hflat⟩, hc⟩ :=
    ParseLayers_invariant env parseLayerName layers
  refine ⟨c, store, hf, hc, ?_⟩
  intro f hmem
  have hsub : f.layers.Sublist (List.range layers.length) := by
    rw [← hflat]
    exact List.sublist_flatten_of_mem (List.mem_map.mpr ⟨f, hmem, rfl⟩)
  obtain ⟨h1, h2, h3⟩ := hflags f hmem
  refine ⟨hall f hmem, h1, h2, h3, (List.pairwise_lt_range layers.length).sublist hsub, ?_⟩
  intro i hi
  have := List.mem_range.mp (hsub.subset hi)
  rw [cropOnly_length hc]
  exact this

/-- C30: in the TypeScript path `ParseLayers` on a fresh function collection
returns; the layer lists of the functions, read in registration order one after
another, are the scan indices `0, …, n - 1` of the `n` scanned layers in order, and
each scanned layer is in the layer list of exactly one function. -/
theorem TypescriptDocument_ParseLayers_partition (env : Helpers) (layers : List Layer) :
    ∃ c store,
      ParseLayers env (TypescriptDocument.ParseLayerName env.CleanString)
        FunctionCollection.new layers = some (c, store) ∧
      store.length = layers.length ∧
      (c.functions.map (fun f => f.layers)).flatten = List.range layers.length ∧
      ∀ i, i < layers.length →
        (c.functions.filter (fun f => decide (i ∈ f.layers))).length = 1 := by
  obtain ⟨⟨c, store⟩, hf, ⟨_, _, hflat⟩, hc⟩ :=
    ParseLayers_invariant env (TypescriptDocument.ParseLayerName env.CleanString) layers
  refine ⟨c, store, hf, cropOnly_length hc, hflat, ?_⟩
  intro i hi
  have h := filter_mem_length_eq_one _ _ hflat i hi
  rw [List.filter_map, List.length_map] at h
  exact h


/-! ## The end-to-end scenario -/

/-- `ParseLayerName` on the closed name of the background layer. -/
theorem ParseLayerName_background (CleanString : String → Bool → String) :
    TypescriptDocument.ParseLayerName CleanString "Background(origin:ul);" "" =
      (CleanString "Background" true, "origin:ul") := by
  rfl

/-- `ParseLayerName` on the closed name of the circle layer. -/
theorem ParseLayerName_circle (CleanString : String → Bool → String) :
    TypescriptDocument.ParseLayerName CleanString "Circle(rasterize:circle.png;crop:yes);" "" =
      (CleanString "Circle" true, "rasterize:circle.png;crop:yes") := by
  rfl

/-- `AddDrawFunction` on the empty collection creates function 0 under the
requested name. -/
theorem AddDrawFunction_first (base : Function) (n : String) :
    FunctionCollection.new.AddDrawFunction base n =
      some (0, { functions := [{ DrawFunction.new base with requestedName := n, name := n }]
                 hasDrawFunctions := true }) := by
  rfl

/-- `AddDrawFunction` on a collection holding one draw function of another name
creates function 1 under the requested name. -/
theorem AddDrawFunction_second (base : Function) (f : Function) (m n : String) (hmn : m ≠ n)
    (h1 : f.type = kDrawFunction) (h2 : f.name = m) (h3 : f.requestedName = m) :
    FunctionCollection.AddDrawFunction base { functions := [f], hasDrawFunctions := true } n =
      some (1, { functions := [f, { DrawFunction.new base with requestedName := n, name := n }]
                 hasDrawFunctions := true }) := by
  simp [FunctionCollection.AddDrawFunction, FunctionCollection.FindDrawFunction,
    FindDrawFunctionLoop, FunctionCollection.CreateUniqueName, FunctionCollection.Find, FindLoop,
    h1, h2, h3, hmn]

/-- What `ParseLayer` does with the background layer of the scenario, given what
`AddDrawFunction` returns for the name `background`. -/
theorem ParseLayer_background (env : Helpers) (c c2 : FunctionCollection) (pre : List Function)
    (store : List Layer) (i : Nat) (layer : Layer)
    (hi : store[i]? = some layer) (hname : layer.name = "Background(origin:ul);")
    (henv : scenarioHelpers env)
    (hadd : c.AddDrawFunction env.base "background" = some (pre.length, c2))
    (hc2 : c2 = { functions := pre ++ [{ DrawFunction.new env.base with
                    requestedName := "background", name := "background" }]
                  hasDrawFunctions := true }) :
    ∃ fb, ParseLayer env (TypescriptDocument.ParseLayerName env.CleanString) i (c, store) =
        some ({ functions := pre ++ [fb], hasDrawFunctions := true }, store) ∧
      fb.type = kDrawFunction ∧ fb.name = "background" ∧ fb.requestedName = "background" ∧
      fb.layers = [i] ∧ fb.translateOrigin = true ∧ fb.translateOriginH = 0 ∧
      fb.translateOriginV = 0 := by
  obtain ⟨hT0, hT1, _, _, _, hB, _, hCP, hTL⟩ := henv
  have c1 : env.CleanParameter "origin" = "origin" := hCP _ (by simp)
  have c2 : env.CleanParameter "ul" = "ul" := hCP _ (by simp)
  have t1 : env.ToLower "origin" = "origin" := hTL _ (by simp)
  subst hc2
  unfold ParseLayer
  simp only [hi, hname, ParseLayerName_background, hB, hT0, hadd]
  simp [SetFunctionOptions, hT1, c1, c2, t1, DrawFunction.new, SetParameter, SetParameter.origin]


/-- What `ParseLayer` does with the circle layer of the scenario, given what
`AddDrawFunction` returns for the name `circle`. -/
theorem ParseLayer_circle (env : Helpers) (c c2 : FunctionCollection) (pre : List Function)
    (store : List Layer) (i : Nat) (layer : Layer)
    (hi : store[i]? = some layer)
    (hname : layer.name = "Circle(rasterize:circle.png;crop:yes);")
    (henv : scenarioHelpers env)
    (hadd : c.AddDrawFunction env.base "circle" = some (pre.length, c2))
    (hc2 : c2 = { functions := pre ++ [{ DrawFunction.new env.base with
                    requestedName := "circle", name := "circle" }]
                  hasDrawFunctions := true }) :
    ∃ fc, ParseLayer env (TypescriptDocument.ParseLayerName env.CleanString) i (c, store) =
        some ({ functions := pre ++ [fc], hasDrawFunctions := true },
          store.set i { layer with crop := true }) ∧
      fc.type = kDrawFunction ∧ fc.name = "circle" ∧ fc.requestedName = "circle" ∧
      fc.layers = [i] ∧ fc.rasterizeFileName = "circle.png" ∧ fc.crop = true := by
  obtain ⟨_, _, hT2, hT3, hT4, _, hC, hCP, hTL⟩ := henv
  have hf : find_last_of "circle.png" '.' = some 6 := by decide
  have hs : substr0 "circle" 6 ++ ".png" = "circle.png" := by decide
  have c3 : env.CleanParameter "rasterize" = "rasterize" := hCP _ (by simp)
  have c4 : env.CleanParameter "circle.png" = "circle.png" := hCP _ (by simp)
  have c5 : env.CleanParameter "crop" = "crop" := hCP _ (by simp)
  have c6 : env.CleanParameter "yes" = "yes" := hCP _ (by simp)
  have t2 : env.ToLower "rasterize" = "rasterize" := hTL _ (by simp)
  have t3 : env.ToLower "crop" = "crop" := hTL _ (by simp)
  subst hc2
  unfold ParseLayer
  simp only [hi, hname, ParseLayerName_circle, hC, hT2, hadd]
  simp [SetFunctionOptions, hT3, hT4, c3, c4, c5, c6, t2, t3, DrawFunction.new, SetParameter,
    SetParameter.rasterize, SetParameter.crop, setFirstLayerCrop, hf, hs, hi]
  exact ⟨_, ⟨rfl, by rw [hname]⟩, rfl, rfl, rfl, rfl, rfl, rfl⟩

/-- C24 (amended): for two scanned layers named `Background(origin:ul);` and
`Circle(rasterize:circle.png;crop:yes);` (the function syntax closed by `;`), in
either scan order, with no crop flag on the background layer, and with helpers
that act on the words of the scenario as `scenarioHelpers` lists (`Tokenize` splits
at the delimiter, `CleanString` gives `background` and `circle`, `CleanParameter`
and `ToLower` leave the option words alone): in the TypeScript path `ParseLayers`
on a fresh collection returns two draw functions
named `background` and `circle`, each holding its own layer;
`background.translateOrigin` is set with `(translateOriginH, translateOriginV) =
(0, 0)`; `circle.rasterizeFileName` is `circle.png` and `circle.crop` is set; and
`SetDocumentBounds` then yields the bounds of the circle layer. -/
theorem ParseLayers_scenario (env : Helpers) (background circle : Layer) (layers : List Layer)
    (hb : background.name = "Background(origin:ul);")
    (hc : circle.name = "Circle(rasterize:circle.png;crop:yes);")
    (hcrop : background.crop = false)
    (horder : layers = [background, circle] ∨ layers = [circle, background])
    (henv : scenarioHelpers env) :
    ∃ c store fb fc,
      ParseLayers env (TypescriptDocument.ParseLayerName env.CleanString)
        FunctionCollection.new layers = some (c, store) ∧
      (c.functions = [fb, fc] ∨ c.functions = [fc, fb]) ∧
      fb.type = kDrawFunction ∧ fc.type = kDrawFunction ∧
      fb.name = "background" ∧ fc.name = "circle" ∧
      fb.layers.map (fun i => layers[i]?) = [some background] ∧
      fc.layers.map (fun i => layers[i]?) = [some circle] ∧
      fb.translateOrigin = true ∧ fb.translateOriginH = 0 ∧ fb.translateOriginV = 0 ∧
      fc.rasterizeFileName = "circle.png" ∧ fc.crop = true ∧
      (SetDocumentBounds env.UpdateBounds store).documentBounds = circle.bounds := by
  rcases horder with rfl | rfl
  · obtain ⟨fb, e0, b1, b2, b3, b4, b5, b6, b7⟩ := ParseLayer_background env
      FunctionCollection.new _ [] [background, circle] 0 background rfl hb henv
      (AddDrawFunction_first env.base "background") rfl
    obtain ⟨fc, e1, d1, d2, _, d4, d5, d6⟩ := ParseLayer_circle env
      { functions := [fb], hasDrawFunctions := true } _ [fb] [background, circle] 1 circle rfl hc
      henv
      (AddDrawFunction_second env.base fb "background" "circle" (by decide) b1 b2 b3) rfl
    refine ⟨{ functions := [fb, fc], hasDrawFunctions := true },
      [background, { circle with crop := true }], fb, fc, ?_, Or.inl rfl, b1, d1, b2, d2,
      by rw [b4]; rfl, by rw [d4]; rfl, b5, b6, b7, d5, d6, ?_⟩
    · unfold ParseLayers
      simp only [List.length_cons, List.length_nil, ParseLayersLoop, Nat.zero_add, e0,
        List.nil_append, e1, List.cons_append, List.set_cons_succ, List.set_cons_zero]
    · simp [SetDocumentBounds, SetDocumentBoundsLoop, hcrop]
  · obtain ⟨fc, e0, d1, d2, d3, d4, d5, d6⟩ := ParseLayer_circle env
      FunctionCollection.new _ [] [circle, background] 0 circle rfl hc henv
      (AddDrawFunction_first env.base "circle") rfl
    obtain ⟨fb, e1, b1, b2, _, b4, b5, b6, b7⟩ := ParseLayer_background env
      { functions := [fc], hasDrawFunctions := true } _ [fc]
      [{ circle with crop := true }, background] 1 background rfl hb henv
      (AddDrawFunction_second env.base fc "circle" "background" (by decide) d1 d2 d3) rfl
    refine ⟨{ functions := [fc, fb], hasDrawFunctions := true },
      [{ circle with crop := true }, background], fb, fc, ?_, Or.inr rfl, b1, d1, b2, d2,
      by rw [b4]; rfl, by rw [d4]; rfl, b5, b6, b7, d5, d6, ?_⟩
    · unfold ParseLayers
      simp only [List.length_cons, List.length_nil, ParseLayersLoop, Nat.zero_add, e0,
        List.nil_append, e1, List.cons_append, List.set_cons_succ, List.set_cons_zero]
    · simp [SetDocumentBounds, SetDocumentBoundsLoop]


/-- C24 (amended), for the layers `scenarioBackground` and `scenarioCircle` in this
order and the helpers `Helpers.sample`. -/
theorem ParseLayers_scenario_witness :
    (scenarioBackground.name = "Background(origin:ul);" ∧
      scenarioCircle.name = "Circle(rasterize:circle.png;crop:yes);" ∧
      scenarioBackground.crop = false ∧ scenarioHelpers Helpers.sample) ∧
    ∃ c store fb fc,
      ParseLayers Helpers.sample (TypescriptDocument.ParseLayerName Helpers.sample.CleanString)
        FunctionCollection.new [scenarioBackground, scenarioCircle] = some (c, store) ∧
      (c.functions = [fb, fc] ∨ c.functions = [fc, fb]) ∧
      fb.type = kDrawFunction ∧ fc.type = kDrawFunction ∧
      fb.name = "background" ∧ fc.name = "circle" ∧
      fb.layers.map (fun i => [scenarioBackground, scenarioCircle][i]?) =
        [some scenarioBackground] ∧
      fc.layers.map (fun i => [scenarioBackground, scenarioCircle][i]?) =
        [some scenarioCircle] ∧
      fb.translateOrigin = true ∧ fb.translateOriginH = 0 ∧ fb.translateOriginV = 0 ∧
      fc.rasterizeFileName = "circle.png" ∧ fc.crop = true ∧
      (SetDocumentBounds Helpers.sample.UpdateBounds store).documentBounds =
        scenarioCircle.bounds :=
  ⟨⟨rfl, rfl, rfl, by decide, by decide, by decide, by decide, by decide, by decide, by decide,
      fun _ _ => rfl, fun _ _ => rfl⟩,
    ParseLayers_scenario Helpers.sample scenarioBackground scenarioCircle
      [scenarioBackground, scenarioCircle] rfl rfl rfl (Or.inl rfl)
      ⟨by decide, by decide, by decide, by decide, by decide, by decide, by decide,
        fun _ _ => rfl, fun _ _ => rfl⟩⟩

/-- C24 (as stated): with the layer names `Background(origin:ul)` and
`Circle(rasterize:circle.png;crop:yes)`, which do not end in `);`, `ParseLayerName`
finds no function syntax.  In the TypeScript path the two functions take the
sanitised full layer names, no option is applied (`rasterizeFileName` stays
empty, `crop` and `translateOrigin` stay unset), no layer is marked as cropping,
and the document bounds are the union `wideBounds` rather than the bounds
`squareBounds` of the circle layer; in the HTML path both names parse to the
function name `draw` with no options. -/
theorem ParseLayers_scenario_unclosed :
    (ParseLayers Helpers.sample (TypescriptDocument.ParseLayerName Helpers.sample.CleanString)
        FunctionCollection.new scenarioLayers).map
      (fun r => r.1.functions.map (fun f => (f.rasterizeFileName, f.crop, f.translateOrigin))) =
      some [("", false, false), ("", false, false)] ∧
    (ParseLayers Helpers.sample (TypescriptDocument.ParseLayerName Helpers.sample.CleanString)
        FunctionCollection.new scenarioLayers).map
      (fun r => r.1.functions.map (fun f => f.name)) =
      some ["background(origin:ul)", "circle(rasterize:circle.png;crop:yes)"] ∧
    (ParseLayers Helpers.sample (TypescriptDocument.ParseLayerName Helpers.sample.CleanString)
        FunctionCollection.new scenarioLayers).map (fun r => r.2) = some scenarioLayers ∧
    (SetDocumentBounds UpdateBounds scenarioLayers).documentBounds = wideBounds ∧
    wideBounds ≠ squareBounds ∧
    HtmlDocument.ParseLayerName Helpers.sample.CleanString "Background(origin:ul)" "" =
      ("draw", "") ∧
    HtmlDocument.ParseLayerName Helpers.sample.CleanString
      "Circle(rasterize:circle.png;crop:yes)" "" = ("draw", "") := by
  exact ⟨by decide, by decide, by decide, by decide, by decide, by decide, by decide⟩

end CanvasExport
